import Mathlib

/-!
Verification of the apical-ts OpenAPI-to-TypeScript generator core.

This file shallowly embeds the schema / response resolution engine of the
generator (the rename pre-pass, the response-collection and union-generation
passes, the runtime response-parsing routine emitted into generated clients,
and the operation-binding utility) and proves or refutes the frozen claims
about it.  JavaScript strings are modelled as Lean `String`s, JavaScript
objects as association lists (JS object keys are unique, so association
lists with distinct keys are a faithful model), JS `Set` as a list with
insert-if-absent, and exceptions as `Except`.
-/

namespace Apical

/-! ### JavaScript string primitives -/

/-- Whitespace characters recognised by JS `trim` (ASCII fragment). -/
def jsIsWs (c : Char) : Bool :=
  c = ' ' || c = '\t' || c = '\n' || c = '\r' || c = '\x0b' || c = '\x0c'

/-- JS `String.prototype.trim` on a character list. -/
def trimList (l : List Char) : List Char :=
  ((l.dropWhile jsIsWs).reverse.dropWhile jsIsWs).reverse

/-- JS `s.trim()`. -/
def jsTrim (s : String) : String :=
  (trimList s.data).asString

/-- JS `s.split(";")[0]`: the prefix of `s` before the first `;`
(the whole string when there is none). -/
def jsTakeBeforeSemi (s : String) : String :=
  (s.data.takeWhile (fun c => c ≠ ';')).asString

/-- JS `s.toLowerCase()` (per-character lowercasing). -/
def jsToLower (s : String) : String :=
  (s.data.map Char.toLower).asString

/-- Substring test on character lists: `pat` occurs somewhere in `l`. -/
def hasSubstrList (pat : List Char) : List Char → Bool
  | [] => pat.isEmpty
  | c :: t => pat.isPrefixOf (c :: t) || hasSubstrList pat t

/-- JS `s.includes(pat)`. -/
def jsIncludes (s pat : String) : Bool :=
  hasSubstrList pat.data s.data

/-- Value of a non-empty list of decimal digit characters. -/
def digitsVal (l : List Char) : Nat :=
  l.foldl (fun acc c => acc * 10 + (c.toNat - '0'.toNat)) 0

/-- JS `parseInt(s, 10)`: skip leading whitespace, optional sign, then the
longest prefix of decimal digits; `none` models `NaN`. -/
def parseIntJS (s : String) : Option Int :=
  let l := s.data.dropWhile jsIsWs
  let (sign, l') : Int × List Char :=
    match l with
    | '-' :: t => (-1, t)
    | '+' :: t => (1, t)
    | t => (1, t)
  let ds := l'.takeWhile Char.isDigit
  if ds.isEmpty then none else some (sign * (digitsVal ds : Int))

/-- Sort key used by the generator's status-code comparator
`(a, b) => parseInt(a, 10) - parseInt(b, 10)`; the `0` default is never
reached on the digit-string status codes the theorems quantify over. -/
def jsStatusKey (s : String) : Int :=
  (parseIntJS s).getD 0

/-- `s` consists of one or more decimal digits. -/
def isDigitString (s : String) : Bool :=
  !s.data.isEmpty && s.data.all Char.isDigit

/-- JS `s.split("/")` on a character list (split at every `/`, keeping
empty segments; the empty string yields one empty segment). -/
def splitOnSlash : List Char → List (List Char)
  | [] => [[]]
  | c :: t =>
      if c = '/' then [] :: splitOnSlash t
      else
        match splitOnSlash t with
        | s :: ss => (c :: s) :: ss
        | [] => [[c]]

/-- JS `s.split("/").pop()` (the last `/`-separated segment). -/
def lastSegmentJS (s : String) : String :=
  ((splitOnSlash s.data).getLastD []).asString

/-- JS `s.charAt(0).toUpperCase() + s.slice(1)`. -/
def capitalizeJS (s : String) : String :=
  match s.data with
  | [] => ""
  | c :: t => (c.toUpper :: t).asString

/-- JS `Set.prototype.add`: append the element if it is not yet present
(JS sets preserve insertion order). -/
def addToSet (l : List String) (a : String) : List String :=
  if a ∈ l then l else l ++ [a]

/-- JS number-to-string for a natural number (decimal numeral),
as produced by template interpolation of the rename counter. -/
def natDecStr (n : Nat) : String :=
  if n = 0 then "0" else ((Nat.digits 10 n).map Nat.digitChar).reverse.asString

/-- JS `p.startsWith(q)`. -/
def jsStartsWith (s p : String) : Bool :=
  p.data.isPrefixOf s.data

/-- JS `s.substring(n)` (drop the first `n` characters). -/
def jsDropChars (s : String) (n : Nat) : String :=
  (s.data.drop n).asString

/-! ### JSON documents (the bundled OpenAPI document tree) -/

/-- A JSON value: the shape of the in-memory OpenAPI document that
`renameConflictingSchemas` walks.  JS objects have unique keys; the
association-list model is read through first-match lookup. -/
inductive Json where
  | null
  | bool (b : Bool)
  | num (n : Int)
  | str (s : String)
  | arr (items : List Json)
  | obj (fields : List (String × Json))

/-- JS truthiness of a JSON value (`undefined` is modelled by a failed
lookup, i.e. `Option.none`). -/
def truthy : Json → Bool
  | Json.null => false
  | Json.bool b => b
  | Json.num n => n ≠ 0
  | Json.str s => s ≠ ""
  | Json.arr _ => true
  | Json.obj _ => true

/-- The OpenAPI document as seen by the rename pre-pass:
`components.schemas` (an ordered map schema-name to schema value) plus the
rest of the document tree; the `$ref` walk visits both. -/
structure Document where
  schemas : List (String × Json)
  rest : Json

/-- `schemas[c]` is truthy (in JS a present schema object). -/
def truthyLookup (schemas : List (String × Json)) (c : String) : Bool :=
  match schemas.lookup c with
  | some v => truthy v
  | none => false

/-- The reserved internal / built-in names from `renameConflictingSchemas`. -/
def reservedNames : List String :=
  ["ApiResponse", "ApiResponseError", "ApiResponseWithForcedParse",
   "ApiResponseWithParse", "Blob", "Buffer", "Date", "Error", "File",
   "FormData", "Headers", "Map", "Promise", "ReadableStream", "Request",
   "Response", "Set", "TransformStream", "URL", "URLSearchParams",
   "WeakMap", "WeakSet", "WritableStream"]

/-- The `i`-th rename candidate for `k` (counter order of the source loop):
`kSchema` first, then `kSchema2`, `kSchema3`, ... -/
def candAt (k : String) (i : Nat) : String :=
  if i < 2 then k ++ "Schema" else k ++ "Schema" ++ natDecStr i

/-- The candidate-search `while` loop: starting at candidate index `i`,
return the first candidate that is not `bad`.  The JS loop is unbounded; the
fuel used below is proved sufficient, and on exhaustion the current
candidate is returned. -/
def findCandAux (bad : String → Bool) (k : String) : Nat → Nat → String
  | i, 0 => candAt k i
  | i, fuel + 1 => if bad (candAt k i) then findCandAux bad k (i + 1) fuel else candAt k i

/-- The rename-map construction loop of `renameConflictingSchemas`: for each
top-level schema name in the reserved set, pick the first candidate that is
neither a truthy key of `schemas` nor an already-renamed original name. -/
def renameMapFor (schemas : List (String × Json)) : List (String × String) :=
  schemas.foldl
    (fun done kv =>
      if kv.1 ∈ reservedNames then
        done ++ [(kv.1,
          findCandAux
            (fun c => truthyLookup schemas c || (done.map Prod.fst).contains c)
            kv.1 1 (2 * schemas.length + 1))]
      else done)
    []

/-- `#/components/schemas/`. -/
def refPrefix : String :=
  "#/components/schemas/"

/-- Rewrite one `$ref` string: when it points into `#/components/schemas/`
and the pointed-to name was renamed, redirect it to the new name. -/
def rewriteRefStr (rm : List (String × String)) (s : String) : String :=
  if jsStartsWith s refPrefix then
    match rm.lookup (jsDropChars s refPrefix.length) with
    | some n => refPrefix ++ n
    | none => s
  else s

/-- The document walk of `renameConflictingSchemas`: rewrite every string
sitting in a `$ref` object field, recursively through arrays and objects. -/
def rewriteRefs (rm : List (String × String)) : Json → Json
  | Json.null => Json.null
  | Json.bool b => Json.bool b
  | Json.num n => Json.num n
  | Json.str s => Json.str s
  | Json.arr items => Json.arr (items.attach.map (fun x => rewriteRefs rm x.1))
  | Json.obj fields => Json.obj (fields.attach.map (fun f =>
      (f.1.1,
        if f.1.1 = "$ref" then
          match h : f.1.2 with
          | Json.str s => Json.str (rewriteRefStr rm s)
          | v => rewriteRefs rm v
        else rewriteRefs rm f.1.2)))
termination_by j => sizeOf j
decreasing_by
  · have := List.sizeOf_lt_of_mem x.2
    simp_wf
    omega
  · rw [← h]
    rcases f with ⟨⟨k, v⟩, hf⟩
    have h1 := List.sizeOf_lt_of_mem hf
    simp_wf
    simp only [Prod.mk.sizeOf_spec] at h1
    omega
  · rcases f with ⟨⟨k, v⟩, hf⟩
    have h1 := List.sizeOf_lt_of_mem hf
    simp_wf
    simp only [Prod.mk.sizeOf_spec] at h1
    omega

/-- The schema name referenced by the object field `(k, v)`, when `v` is a
`$ref` string of the form `#/components/schemas/<name>`. -/
def refNameOf (k : String) (v : Json) : Option String :=
  if k = "$ref" then
    match v with
    | Json.str s =>
        if jsStartsWith s refPrefix then some (jsDropChars s refPrefix.length) else none
    | _ => none
  else none

/-- All schema names referenced by `$ref`s of the form
`#/components/schemas/<name>` anywhere in a JSON tree. -/
def collectRefNames : Json → List String
  | Json.null => []
  | Json.bool _ => []
  | Json.num _ => []
  | Json.str _ => []
  | Json.arr items => (items.attach.map (fun x => collectRefNames x.1)).flatten
  | Json.obj fields => (fields.attach.map (fun f =>
      (refNameOf f.1.1 f.1.2).toList ++ collectRefNames f.1.2)).flatten
termination_by j => sizeOf j
decreasing_by
  · have := List.sizeOf_lt_of_mem x.2
    simp_wf
    omega
  · rcases f with ⟨⟨k, v⟩, hf⟩
    have h1 := List.sizeOf_lt_of_mem hf
    simp_wf
    simp only [Prod.mk.sizeOf_spec] at h1
    omega

/-- All `#/components/schemas/<name>` reference names in a document. -/
def docRefNames (doc : Document) : List String :=
  (doc.schemas.map (fun kv => collectRefNames kv.2)).flatten ++ collectRefNames doc.rest

/-- `renameConflictingSchemas` (part_009): build the rename map for schema
names colliding with the reserved set, rename the top-level schema keys, and
rewrite every `$ref` in the whole document; returns the renamed document and
the number of renames. -/
def renameConflictingSchemas (doc : Document) : Document × Nat :=
  let rm := renameMapFor doc.schemas
  if rm.isEmpty then (doc, 0)
  else
    ({ schemas := doc.schemas.map (fun kv => ((rm.lookup kv.1).getD kv.1, rewriteRefs rm kv.2)),
       rest := rewriteRefs rm doc.rest },
     rm.length)

/-- A concrete document: reserved name `Map` (with `MapSchema` also taken)
and a `$ref` to `#/components/schemas/Map` elsewhere in the document. -/
def c2doc : Document :=
  ⟨[("Map", Json.obj []), ("MapSchema", Json.str ("x"))],
   Json.obj [("$ref", Json.str ("#/components/schemas/Map"))]⟩

/-! ### Generated-client runtime: response parsing (config-templates.ts) -/

/-- A minimal fetch response: status plus the value of
`headers.get("content-type")` (`none` models a missing header / `null`). -/
structure MinimalResponse where
  status : Nat
  contentTypeHeader : Option String

/-- `getResponseContentType` (config-templates.ts, runtime support code):
`raw ? raw.split(";")[0].trim().toLowerCase() : ""`. -/
def getResponseContentType (response : MinimalResponse) : String :=
  match response.contentTypeHeader with
  | none => ""
  | some raw => if raw = "" then "" else jsToLower (jsTrim (jsTakeBeforeSemi raw))

/-- A Zod error (opaque payload). -/
structure ZodError where
  message : String

/-- A Zod schema, exposed through `safeParse`; `Except.ok` is a successful
parse carrying the (possibly transformed) data. -/
abbrev Schema : Type :=
  Json → Except ZodError Json

/-- The schema map for one status: content type to schema. -/
abbrev SchemaMap : Type :=
  List (String × Schema)

/-- A configured deserializer `(data, contentType) => transformed`;
`Except.error` models a thrown JS value. -/
abbrev Deserializer : Type :=
  Json → String → Except Json Json

/-- `DeserializerMap`: content type to deserializer. -/
abbrev DeserializerMap : Type :=
  List (String × Deserializer)

/-- The four result shapes of `parseApiResponseUnknownData`. -/
inductive ParseOutcome where
  | parsed (contentType : String) (value : Json)
  | parseError (e : ZodError)
  | missingSchema (e : String)
  | deserializationError (e : Json)

/-- The `kind` discriminant field of a parse outcome (`none` on success,
where the object has no `kind`). -/
def kindField : ParseOutcome → Option String
  | ParseOutcome.parsed _ _ => none
  | ParseOutcome.parseError _ => some ("parse-error")
  | ParseOutcome.missingSchema _ => some ("missing-schema")
  | ParseOutcome.deserializationError _ => some ("deserialization-error")

/-- JS `"parsed" in parseResult`. -/
def hasParsedField : ParseOutcome → Bool
  | ParseOutcome.parsed _ _ => true
  | _ => false

/-- The body of `parseApiResponseUnknownData` after the content type has
been resolved: apply a configured deserializer (catching a throw), then
look up the schema for the content type and run `safeParse`. -/
def parseApiResponseCore (contentType : String) (data : Json)
    (schemaMap : SchemaMap) (deserializers : DeserializerMap) : ParseOutcome :=
  let deser : Json × Option Json :=
    match deserializers.lookup contentType with
    | some d =>
        match d data contentType with
        | Except.ok v => (v, none)
        | Except.error e => (data, some e)
    | none => (data, none)
  match schemaMap.lookup contentType with
  | none =>
      match deser.2 with
      | some e => ParseOutcome.deserializationError e
      | none => ParseOutcome.missingSchema ("No schema found for content-type: " ++ contentType)
  | some schema =>
      match deser.2 with
      | some e => ParseOutcome.deserializationError e
      | none =>
          match schema deser.1 with
          | Except.ok v => ParseOutcome.parsed contentType v
          | Except.error e => ParseOutcome.parseError e

/-- `parseApiResponseUnknownData` (config-templates.ts): normalize the
content type with `getResponseContentType`, then classify the payload. -/
def parseApiResponseUnknownData (response : MinimalResponse) (data : Json)
    (schemaMap : SchemaMap) (deserializers : DeserializerMap) : ParseOutcome :=
  parseApiResponseCore (getResponseContentType response) data schemaMap deserializers

/-- Result of the forced-validation branch of a generated response handler
(`renderResponseHandler`): either the success object whose `parsed` field
holds the parsed value, or the error object spreading the parse result, or
the `throw new Error("Invalid parse result")` escape. -/
inductive ForcedOutcome where
  | success (status : Nat) (data : Json) (parsed : Json)
  | failure (kind : String) (outcome : ParseOutcome) (status : Nat) (data : Json)
  | thrown

/-- The forced-validation branch of the generated handler: run
`parseApiResponseUnknownData` eagerly; `"parsed" in parseResult` selects the
success object, a truthy `kind` selects the error object. -/
def forcedHandler (response : MinimalResponse) (data : Json)
    (schemaMap : SchemaMap) (deserializers : DeserializerMap) : ForcedOutcome :=
  let parseResult := parseApiResponseUnknownData response data schemaMap deserializers
  if hasParsedField parseResult then
    match parseResult with
    | ParseOutcome.parsed _ v => ForcedOutcome.success response.status data v
    | _ => ForcedOutcome.thrown
  else
    match kindField parseResult with
    | some k => ForcedOutcome.failure k parseResult response.status data
    | none => ForcedOutcome.thrown

/-- The manual-validation branch of the generated handler: a success object
whose `parse` thunk calls `parseApiResponseUnknownData` with the same
arguments the forced branch uses. -/
structure ManualOutcome where
  status : Nat
  data : Json
  parse : Unit → ParseOutcome

/-- Manual-mode construction (`renderResponseHandler`, else-branch). -/
def manualHandler (response : MinimalResponse) (data : Json)
    (schemaMap : SchemaMap) (deserializers : DeserializerMap) : ManualOutcome :=
  { status := response.status
    data := data
    parse := fun _ => parseApiResponseUnknownData response data schemaMap deserializers }

/-! ### Response analysis (response-analysis.ts) -/

/-- `ContentTypeAnalysis` (analyzeContentTypes result shape). -/
structure ContentTypeAnalysis where
  allContentTypes : List String
  hasJsonLike : Bool
  hasMixedContentTypes : Bool
  hasNonJson : Bool

/-- `ParsingStrategy`. -/
structure ParsingStrategy where
  isJsonLike : Bool
  requiresRuntimeContentTypeCheck : Bool
  useValidation : Bool

/-- `determineParsingStrategy` (response-analysis.ts): note the code tests
`contentType.includes("json") || contentType.includes("+json")`. -/
def determineParsingStrategy (contentType : String) (hasSchema : Bool)
    (contentTypeAnalysis : ContentTypeAnalysis)
    (hasResponseContentTypeMap : Bool) : ParsingStrategy :=
  let isJsonLike := jsIncludes contentType ("json") || jsIncludes contentType ("+json")
  { isJsonLike := isJsonLike
    requiresRuntimeContentTypeCheck :=
      contentTypeAnalysis.hasMixedContentTypes && hasResponseContentTypeMap
    useValidation := hasSchema && isJsonLike }

/-- The json-likeness predicate as the specification states it: the
content-type string matches `*/json` (the subtype is exactly `json`) or
`*+json` (the subtype carries a `+json` structured-syntax suffix). -/
def isJsonLikeSpec (contentType : String) : Bool :=
  let sub := ((contentType.data.dropWhile (fun c => c ≠ '/')).drop 1).asString
  sub = "json" || (("+json" : String).data.isSuffixOf sub.data)

/-! ### Operation binding (configureOperations, config-templates.ts) -/

/-- The relevant slice of `GlobalConfig` for binding. -/
structure GlobalConfig where
  baseURL : String
  forceValidation : Bool

/-- A value in the operations record: a callable operation or a
non-function value (which binding silently excludes). -/
inductive OperationValue where
  | fn (f : Json → GlobalConfig → Json)
  | nonFn (v : Json)

/-- A bound operation as produced by `configureOperations`: the JS closure
`(params) => op(params, config)` has arity one, so a config supplied as a
second argument at the call site is dropped by JS call semantics; the model
gives the bound function the extra (ignored) argument explicitly. -/
abbrev BoundOperation : Type :=
  Json → Option GlobalConfig → Json

/-- `configureOperations` (config-templates.ts): bind each function-valued
operation to the supplied config. -/
def configureOperations (operations : List (String × OperationValue))
    (config : GlobalConfig) : List (String × BoundOperation) :=
  operations.foldl
    (fun bound kv =>
      match kv.2 with
      | OperationValue.fn f =>
          bound ++ [(kv.1, fun params (_ : Option GlobalConfig) => f params config)]
      | OperationValue.nonFn _ => bound)
    []

/-! ### Operation model and shared schema-type resolution -/

/-- A schema attached to a content type: a `$ref` reference object or an
inline schema object (`isReferenceObject` distinguishes them). -/
inductive SchemaOrRef where
  | ref (path : String)
  | inline (schema : Json)

/-- `ContentTypeMapping` (shared/types.ts): content type plus optional schema. -/
structure ContentTypeMapping where
  contentType : String
  schema : Option SchemaOrRef

/-- A response object: its ordered content map (content type to optional
schema), `none` when the response declares no `content`. -/
structure ResponseObject where
  content : Option (List (String × Option SchemaOrRef))

/-- A request body object: `required` flag plus ordered content map. -/
structure RequestBodyObject where
  required : Bool
  content : List (String × Option SchemaOrRef)

/-- An operation object (the slice the analyzed passes read). -/
structure OperationObject where
  operationId : Option String
  requestBody : Option RequestBodyObject
  responses : Option (List (String × ResponseObject))

/-- `resolveSchemaTypeName` (shared/schema-type-resolver.ts), parameterized
by the externally imported `sanitizeIdentifier` (`san`); returns the
resolved name and the updated `typeImports` set, `Except.error` modelling
the `assert` throw on an empty last `$ref` segment. -/
def resolveSchemaTypeName (san : String → String) (schema : Option SchemaOrRef)
    (operationId suffix : String) (typeImports : List String) :
    Except String (String × List String) :=
  match schema with
  | some (SchemaOrRef.ref r) =>
      let seg := lastSegmentJS r
      if seg = "" then Except.error ("Invalid $ref in schema")
      else Except.ok (san seg, addToSet typeImports (san seg))
  | _ =>
      let typeName := capitalizeJS (san operationId) ++ suffix
      Except.ok (typeName, addToSet typeImports typeName)

/-- `resolveStrictSchemaTypeName` (shared/schema-type-resolver.ts and the
local copy in server-request-body-maps.ts): as `resolveSchemaTypeName` but
with a `Strict` suffix. -/
def resolveStrictSchemaTypeName (san : String → String) (schema : Option SchemaOrRef)
    (operationId suffix : String) (typeImports : List String) :
    Except String (String × List String) :=
  match schema with
  | some (SchemaOrRef.ref r) =>
      let seg := lastSegmentJS r
      if seg = "" then Except.error ("Invalid $ref in schema")
      else Except.ok (san seg ++ "Strict", addToSet typeImports (san seg ++ "Strict"))
  | _ =>
      let typeName := capitalizeJS (san operationId) ++ suffix ++ "Strict"
      Except.ok (typeName, addToSet typeImports typeName)

/-- Result shape of `extractRequestContentTypes`. -/
structure RequestContentTypesResult where
  isRequired : Bool
  contentTypes : List ContentTypeMapping

/-- Modelled from the spec: `extractRequestContentTypes` (the
client-generator operation extractor is not among the provided sources) —
"extractRequestContentTypes(requestBody) → {isRequired, contentTypes}";
"Order of contentTypes preserves declaration order"; "entries without a
schema are retained"; "Empty content maps yield an empty list, never null". -/
def extractRequestContentTypes (requestBody : RequestBodyObject) : RequestContentTypesResult :=
  { isRequired := requestBody.required
    contentTypes := requestBody.content.map (fun kv => ContentTypeMapping.mk kv.1 kv.2) }

/-- Result of `generateServerRequestBodyMap`. -/
structure ServerRequestBodyMapResult where
  contentTypeCount : Nat
  contentTypeMappings : List ContentTypeMapping
  defaultContentType : Option String
  requestMapType : String
  shouldGenerateRequestMap : Bool
  typeImports : List String

/-- The per-mapping loop of `generateServerRequestBodyMap`: resolve each
content type to its strict type name and render the map lines. -/
def srbMappings (san : String → String) (operationId : String) :
    List ContentTypeMapping → List String → Except String (List String × List String)
  | [], imports => Except.ok ([], imports)
  | m :: rest, imports =>
      match resolveStrictSchemaTypeName san m.schema operationId ("Request") imports with
      | Except.error e => Except.error e
      | Except.ok (typeName, imports') =>
          match srbMappings san operationId rest imports' with
          | Except.error e => Except.error e
          | Except.ok (lines, imports'') =>
              Except.ok (("  \"" ++ m.contentType ++ "\": " ++ typeName ++ ";") :: lines, imports'')

/-- `generateServerRequestBodyMap` (shared/server-request-body-maps.ts). -/
def generateServerRequestBodyMap (san : String → String) (operation : OperationObject)
    (operationId : String) (typeImports : List String) :
    Except String ServerRequestBodyMapResult :=
  let emptyResult : ServerRequestBodyMapResult :=
    { contentTypeCount := 0, contentTypeMappings := [], defaultContentType := none,
      requestMapType := "\x7b\x7d", shouldGenerateRequestMap := false, typeImports := [] }
  match operation.requestBody with
  | none => Except.ok emptyResult
  | some rb =>
      let requestContentTypes := extractRequestContentTypes rb
      match requestContentTypes.contentTypes with
      | [] => Except.ok emptyResult
      | c0 :: rest =>
          match srbMappings san operationId (c0 :: rest) typeImports with
          | Except.error e => Except.error e
          | Except.ok (lines, imports') =>
              Except.ok
                { contentTypeCount := (c0 :: rest).length
                  contentTypeMappings := c0 :: rest
                  defaultContentType := some c0.contentType
                  requestMapType := "\x7b\n" ++ String.intercalate "\n" lines ++ "\n\x7d"
                  shouldGenerateRequestMap := decide ((c0 :: rest).length > 1)
                  typeImports := imports' }

/-! ### Response content extraction and the shared response union -/

/-- One entry of the `extractResponseContentTypes` result. -/
structure ResponseContentTypesGroup where
  statusCode : String
  contentTypes : List ContentTypeMapping

/-- Modelled from the spec: `extractResponseContentTypes(operation) →
{statusCode, contentTypes}[]` (the extractor source is not provided) —
statuses processed "including the literal default entry", declaration order
preserved, schema-less entries retained; per its unit tests, responses
without content are omitted. -/
def extractResponseContentTypes (operation : OperationObject) :
    List ResponseContentTypesGroup :=
  (operation.responses.getD []).filterMap (fun kv =>
    match kv.2.content with
    | some l =>
        if l.isEmpty then none
        else some ⟨kv.1, l.map (fun e => ContentTypeMapping.mk e.1 e.2)⟩
    | none => none)

/-- `ResponseUnionMember` (shared/response-union-generator.ts). -/
structure ResponseUnionMember where
  contentType : Option String
  dataType : Option String
  statusCode : String

/-- Options for response union generation. -/
structure ResponseUnionOptions where
  useStrictSchemas : Bool

/-- Result of response union generation. -/
structure ResponseUnionResult where
  typeImports : List String
  unionMembers : List ResponseUnionMember
  unionTypeDefinition : String

/-- The ordering induced by the status-code comparator
`(a, b) => parseInt(a, 10) - parseInt(b, 10)`. -/
def statusLe (a b : String) : Prop :=
  jsStatusKey a ≤ jsStatusKey b

instance : DecidableRel statusLe :=
  fun a b => inferInstanceAs (Decidable (jsStatusKey a ≤ jsStatusKey b))

instance : IsTotal String statusLe :=
  ⟨fun a b => Int.le_total (jsStatusKey a) (jsStatusKey b)⟩

instance : IsTrans String statusLe :=
  ⟨fun _ _ _ hab hbc => Int.le_trans hab hbc⟩

/-- JS `Array.prototype.sort` with the comparator
`(a, b) => parseInt(a, 10) - parseInt(b, 10)`: a stable sort by the
comparator (for a total preorder, every stable sort produces the same list,
so the model uses insertion sort). -/
def jsSortStatusCodes (codes : List String) : List String :=
  codes.insertionSort statusLe

/-- Truthiness of an optional JS string (both `undefined` and `""` are falsy). -/
def jsTruthyOptStr : Option String → Bool
  | some s => s ≠ ""
  | none => false

/-- The inner loop of `generateResponseUnion`: one typed member per content
type of a status with content. -/
def unionMembersForGroup (san : String → String) (useStrict : Bool)
    (operationId statusCode : String) :
    List ContentTypeMapping → List String →
    Except String (List ResponseUnionMember × List String)
  | [], imports => Except.ok ([], imports)
  | m :: rest, imports =>
      match (if useStrict then resolveStrictSchemaTypeName else resolveSchemaTypeName)
          san m.schema operationId (statusCode ++ "Response") imports with
      | Except.error e => Except.error e
      | Except.ok (dataType, imports') =>
          match unionMembersForGroup san useStrict operationId statusCode rest imports' with
          | Except.error e => Except.error e
          | Except.ok (ms, imports'') =>
              Except.ok
                (ResponseUnionMember.mk (some m.contentType) (some dataType) statusCode :: ms,
                  imports'')

/-- One status of the `generateResponseUnion` loop: typed members when the
status has content, a single bare (void) member otherwise. -/
def unionMembersForStatus (san : String → String) (useStrict : Bool)
    (groups : List ResponseContentTypesGroup) (operationId statusCode : String)
    (imports : List String) :
    Except String (List ResponseUnionMember × List String) :=
  if (groups.map (fun g => g.statusCode)).contains statusCode then
    match groups.find? (fun g => g.statusCode = statusCode) with
    | some g => unionMembersForGroup san useStrict operationId statusCode g.contentTypes imports
    | none => Except.ok ([], imports)
  else
    Except.ok ([ResponseUnionMember.mk none none statusCode], imports)

/-- The outer loop of `generateResponseUnion` over the sorted status codes. -/
def unionMembersGo (san : String → String) (useStrict : Bool)
    (groups : List ResponseContentTypesGroup) (operationId : String) :
    List String → List ResponseUnionMember → List String →
    Except String (List ResponseUnionMember × List String)
  | [], acc, imports => Except.ok (acc, imports)
  | c :: rest, acc, imports =>
      match unionMembersForStatus san useStrict groups operationId c imports with
      | Except.error e => Except.error e
      | Except.ok (bm, imports') =>
          unionMembersGo san useStrict groups operationId rest (acc ++ bm) imports'

/-- Rendering of one union member
(`  | { status: ...; contentType: "..."; data: ...; }`). -/
def memberString (m : ResponseUnionMember) : String :=
  "  | \x7b status: " ++ m.statusCode ++ "; " ++
    (match m.contentType with
     | some ct => if ct = "" then "" else "contentType: \"" ++ ct ++ "\";"
     | none => "") ++ " " ++
    (match m.dataType with
     | some dt => if dt = "" then "" else "data: " ++ dt ++ ";"
     | none => "") ++ " \x7d"

/-- `generateUnionTypeDefinition` (shared/response-union-generator.ts). -/
def generateUnionTypeDefinition (typeName : String) (members : List ResponseUnionMember) : String :=
  if members.isEmpty then "export type " ++ typeName ++ " = never;"
  else
    "export type " ++ typeName ++ " =\n" ++
      String.intercalate "\n" (members.map memberString) ++ ";"

/-- `generateResponseUnion` (shared/response-union-generator.ts): all
numeric status codes sorted ascending by `parseInt`, `default` filtered out,
typed members per content type for statuses with content, a bare member for
statuses without. -/
def generateResponseUnion (san : String → String) (operation : OperationObject)
    (operationId : String) (typeImports : List String)
    (options : ResponseUnionOptions) : Except String ResponseUnionResult :=
  let responseTypeName := san operationId ++ "Response"
  match operation.responses with
  | none =>
      let unionMembers := [ResponseUnionMember.mk none none ("200")]
      Except.ok ⟨typeImports, unionMembers, generateUnionTypeDefinition responseTypeName unionMembers⟩
  | some resps =>
      let allStatusCodes :=
        jsSortStatusCodes ((resps.map Prod.fst).filter (fun c => c ≠ "default"))
      let groups := extractResponseContentTypes operation
      match unionMembersGo san options.useStrictSchemas groups operationId
          allStatusCodes [] typeImports with
      | Except.error e => Except.error e
      | Except.ok (unionMembers, imports') =>
          Except.ok
            ⟨imports', unionMembers, generateUnionTypeDefinition responseTypeName unionMembers⟩

/-! ### Client response analysis (response-analysis.ts) -/

/-- `ResponseInfo` (client-generator/models/response-models.ts). -/
structure ResponseInfo where
  contentType : Option String
  hasSchema : Bool
  parsingStrategy : ParsingStrategy
  statusCode : String
  typeName : Option String

/-- Modelled from the spec: `getResponseContentType(response)` of
client-generator/utils.ts (not among the provided sources) — it selects the
"primary content type" of a response; per its unit tests it prefers a
JSON content type and otherwise takes the first declared one; `none` when
the response has no content. -/
def clientGetResponseContentType (response : ResponseObject) : Option String :=
  match response.content with
  | none => none
  | some l =>
      let keys := l.map Prod.fst
      match keys.find? (fun k => jsIncludes k ("json")) with
      | some k => some k
      | none => keys.head?

/-- `analyzeContentTypes` (response-analysis.ts). -/
def analyzeContentTypes (response : ResponseObject) : ContentTypeAnalysis :=
  let allContentTypes := (response.content.getD []).map Prod.fst
  let hasJsonLike :=
    allContentTypes.any (fun ct => jsIncludes ct ("json") || jsIncludes ct ("+json"))
  let hasNonJson :=
    allContentTypes.any (fun ct => !(jsIncludes ct ("json")) && !(jsIncludes ct ("+json")))
  { allContentTypes := allContentTypes
    hasJsonLike := hasJsonLike
    hasMixedContentTypes := hasJsonLike && hasNonJson
    hasNonJson := hasNonJson }

/-- `resolveResponseTypeName` (response-analysis.ts): named references must
point into `#/components/schemas/`; inline schemas synthesize
`<OperationId><status>Response`; `Except.error` models the `assert` throws. -/
def resolveResponseTypeName (san : String → String) (schema : SchemaOrRef)
    (operation : OperationObject) (statusCode : String) (typeImports : List String) :
    Except String (String × List String) :=
  match schema with
  | SchemaOrRef.ref r =>
      if !(jsStartsWith r refPrefix) then
        Except.error ("Unsupported schema reference: " ++ r)
      else
        let seg := lastSegmentJS r
        if seg = "" then Except.error ("Invalid $ref in response schema")
        else Except.ok (san seg, addToSet typeImports (san seg))
  | SchemaOrRef.inline _ =>
      match operation.operationId with
      | none => Except.error ("Invalid operationId")
      | some oid =>
          if oid = "" then Except.error ("Invalid operationId")
          else
            let typeName := capitalizeJS (san oid) ++ statusCode ++ "Response"
            Except.ok (typeName, addToSet typeImports typeName)

/-- `buildResponseTypeInfo` (response-analysis.ts). -/
def buildResponseTypeInfo (san : String → String) (statusCode : String)
    (response : ResponseObject) (operation : OperationObject)
    (typeImports : List String) (hasResponseContentTypeMap : Bool) :
    Except String (ResponseInfo × List String) :=
  let contentType := clientGetResponseContentType response
  let contentTypeAnalysis := analyzeContentTypes response
  let schemaAt : Option SchemaOrRef :=
    match contentType with
    | some ct =>
        if ct = "" then none
        else
          match (response.content.getD []).lookup ct with
          | some (some s) => some s
          | _ => none
    | none => none
  match schemaAt with
  | some s =>
      match resolveResponseTypeName san s operation statusCode typeImports with
      | Except.error e => Except.error e
      | Except.ok (typeName, imports') =>
          Except.ok
            ({ contentType := contentType, hasSchema := true
               parsingStrategy :=
                 determineParsingStrategy (contentType.getD "") true contentTypeAnalysis
                   hasResponseContentTypeMap
               statusCode := statusCode, typeName := some typeName }, imports')
  | none =>
      Except.ok
        ({ contentType := contentType, hasSchema := false
           parsingStrategy :=
             determineParsingStrategy (contentType.getD "") false contentTypeAnalysis
               hasResponseContentTypeMap
           statusCode := statusCode, typeName := none }, typeImports)

/-- Result of `collectResponses`. -/
structure CollectResult where
  defaultResponseInfo : Option ResponseInfo
  responses : List ResponseInfo

/-- The numeric-status loop of `collectResponses`. -/
def collectResponsesGo (san : String → String) (operation : OperationObject)
    (resps : List (String × ResponseObject)) (hasResponseContentTypeMap : Bool) :
    List String → List String →
    Except String (List ResponseInfo × List String)
  | [], imports => Except.ok ([], imports)
  | code :: rest, imports =>
      match resps.lookup code with
      | none => Except.error ("TypeError: undefined response object")
      | some r =>
          match buildResponseTypeInfo san code r operation imports hasResponseContentTypeMap with
          | Except.error e => Except.error e
          | Except.ok (info, imports') =>
              match collectResponsesGo san operation resps hasResponseContentTypeMap rest imports' with
              | Except.error e => Except.error e
              | Except.ok (infos, imports'') => Except.ok (info :: infos, imports'')

/-- `collectResponses` (response-analysis.ts): numeric status codes sorted
ascending by `parseInt`, each turned into a `ResponseInfo`; the `default`
entry is handled after the loop and returned separately. -/
def collectResponses (san : String → String) (operation : OperationObject)
    (typeImports : List String) (hasResponseContentTypeMap : Bool) :
    Except String (CollectResult × List String) :=
  match operation.responses with
  | none => Except.ok (⟨none, []⟩, typeImports)
  | some resps =>
      let responseCodes :=
        jsSortStatusCodes ((resps.map Prod.fst).filter (fun c => c ≠ "default"))
      match collectResponsesGo san operation resps hasResponseContentTypeMap
          responseCodes typeImports with
      | Except.error e => Except.error e
      | Except.ok (responses, imports') =>
          match resps.lookup ("default") with
          | some dr =>
              match buildResponseTypeInfo san ("default") dr operation imports'
                  hasResponseContentTypeMap with
              | Except.error e => Except.error e
              | Except.ok (dinfo, imports'') => Except.ok (⟨some dinfo, responses⟩, imports'')
          | none => Except.ok (⟨none, responses⟩, imports')

/-- The `ApiResponse<status, unknown|void>` member rendering
(`pushStandard` in buildUnionTypes). -/
def pushStandardStr (info : ResponseInfo) : String :=
  let dataType := if jsTruthyOptStr info.contentType then "unknown" else "void"
  let statusLiteral := if info.statusCode = "default" then "\"default\"" else info.statusCode
  "ApiResponse<" ++ statusLiteral ++ ", " ++ dataType ++ ">"

/-- The conditional forced/manual member rendering used for schema-bearing
statuses when a response map exists. -/
def condTypeStr (statusLiteral mapName : String) : String :=
  "(TForceValidation extends true ? ApiResponseWithForcedParse<" ++ statusLiteral ++
    ", typeof " ++ mapName ++ "> : ApiResponseWithParse<" ++ statusLiteral ++
    ", typeof " ++ mapName ++ ">)"

/-- `buildUnionTypes` (response-analysis.ts): one member per collected
`ResponseInfo`, the default entry appended after the numeric entries, and a
single terminal `ApiResponseError` member. -/
def buildUnionTypes (defaultResponseInfo : Option ResponseInfo)
    (mapName : Option String) (responses : List ResponseInfo) : List String :=
  (if jsTruthyOptStr mapName then
    let mn := mapName.getD ""
    responses.map (fun info =>
      if info.hasSchema then condTypeStr info.statusCode mn else pushStandardStr info)
    ++ (match defaultResponseInfo with
        | some d =>
            [if d.hasSchema then condTypeStr ("\"default\"") mn else pushStandardStr d]
        | none => [])
  else
    responses.map (fun info =>
      if info.hasSchema then "ApiResponse<" ++ info.statusCode ++ ", unknown>"
      else pushStandardStr info)
    ++ (match defaultResponseInfo with
        | some d =>
            [if d.hasSchema then "ApiResponse<\"default\", unknown>" else pushStandardStr d]
        | none => []))
  ++ ["ApiResponseError"]

/-- The (status, content-type) pairs the shared union generator emits for
one status code: one pair per declared content type when the status has
content, a single schema-less pair otherwise. -/
def specPairsFor (groups : List ResponseContentTypesGroup) (statusCode : String) :
    List (String × Option String) :=
  match groups.find? (fun g => g.statusCode = statusCode) with
  | some g => g.contentTypes.map (fun m => (statusCode, some m.contentType))
  | none => [(statusCode, none)]

/-- Resolving the same named reference repeatedly, threading the
`typeImports` set through (the generator calls `resolveSchemaTypeName` once
per occurrence of the reference, mutating one shared `Set`). -/
def iterResolveImports (san : String → String) (r operationId suffix : String) :
    Nat → List String → List String
  | 0, imports => imports
  | n + 1, imports =>
      match resolveSchemaTypeName san (some (SchemaOrRef.ref r)) operationId suffix imports with
      | Except.ok p => iterResolveImports san r operationId suffix n p.2
      | Except.error _ => imports

/-! ### Theorems -/

/-- C1: for every response payload handled under a schema map, the
forced-mode construction and the manual-mode `parse()` classify the payload
identically: both run `parseApiResponseUnknownData` on the same arguments;
a success gives a forced success whose `parsed` field is exactly the parsed
value `parse()` returns, a failure gives the same error `kind`, and the
forced handler never reaches its `throw`. -/
theorem c1_duality_equivalence (response : MinimalResponse) (data : Json)
    (schemaMap : SchemaMap) (deserializers : DeserializerMap) :
    (manualHandler response data schemaMap deserializers).parse () =
      parseApiResponseUnknownData response data schemaMap deserializers ∧
    (∀ ct v,
      (manualHandler response data schemaMap deserializers).parse () =
          ParseOutcome.parsed ct v →
        forcedHandler response data schemaMap deserializers =
          ForcedOutcome.success response.status data v) ∧
    (∀ k,
      kindField ((manualHandler response data schemaMap deserializers).parse ()) =
          some k →
        forcedHandler response data schemaMap deserializers =
          ForcedOutcome.failure k
            (parseApiResponseUnknownData response data schemaMap deserializers)
            response.status data) ∧
    forcedHandler response data schemaMap deserializers ≠ ForcedOutcome.thrown := by
  refine ⟨rfl, ?_, ?_, ?_⟩
  · intro ct v h
    have h' : parseApiResponseUnknownData response data schemaMap deserializers =
        ParseOutcome.parsed ct v := h
    simp [forcedHandler, h', hasParsedField]
  · intro k h
    have h' : kindField (parseApiResponseUnknownData response data schemaMap deserializers) =
        some k := h
    cases hpr : parseApiResponseUnknownData response data schemaMap deserializers <;>
      rw [hpr] at h' <;> simp [kindField] at h' <;>
      simp [forcedHandler, hpr, hasParsedField, kindField, h']
  · cases hpr : parseApiResponseUnknownData response data schemaMap deserializers <;>
      simp [forcedHandler, hpr, hasParsedField, kindField]

/-- Witness for C1 at a concrete response, payload, schema map and
deserializer map. -/
theorem c1_duality_equivalence_witness :
    forcedHandler ⟨200, some ("application/json")⟩ (Json.num 5)
        [(("application/json"), fun j => Except.ok j)] [] =
      ForcedOutcome.success 200 (Json.num 5) (Json.num 5) :=
  (c1_duality_equivalence ⟨200, some ("application/json")⟩ (Json.num 5)
      [(("application/json"), fun j => Except.ok j)] []).2.1
    ("application/json") (Json.num 5) rfl

/-- C5 (code bug): the bound closure produced by `configureOperations` is
`(params) => op(params, config)`; a config supplied as a second argument at
the call site is dropped, so the call still uses the bind-time config
(`baseURL` evaluates to the bound one, not the override), contradicting the
generator's own documentation of per-call override. -/
theorem c5_per_call_override_ignored :
    ((configureOperations
        [(("op"), OperationValue.fn (fun _ cfg => Json.str cfg.baseURL))]
        ⟨("bound"), true⟩).lookup ("op")).map
      (fun f => f Json.null (some ⟨("override"), false⟩)) =
      some (Json.str ("bound")) := by
  rfl

/-- C6 (amended): when the schema map has no schema for the resolved
content type, `parseApiResponseUnknownData` returns `missing-schema` —
unless the configured deserializer for that content type threw, in which
case it returns `deserialization-error`; in either case the call returns a
classified value (the embedding is a total function, so it never throws). -/
theorem c6_missing_schema (response : MinimalResponse) (data : Json)
    (schemaMap : SchemaMap) (deserializers : DeserializerMap)
    (hnone : schemaMap.lookup (getResponseContentType response) = none) :
    parseApiResponseUnknownData response data schemaMap deserializers =
      ParseOutcome.missingSchema
        ("No schema found for content-type: " ++ getResponseContentType response) ∨
    ∃ d e, deserializers.lookup (getResponseContentType response) = some d ∧
      d data (getResponseContentType response) = Except.error e ∧
      parseApiResponseUnknownData response data schemaMap deserializers =
        ParseOutcome.deserializationError e := by
  unfold parseApiResponseUnknownData parseApiResponseCore
  rcases hd : deserializers.lookup (getResponseContentType response) with _ | d
  · left
    simp [hd, hnone]
  · rcases hr : d data (getResponseContentType response) with e | v
    · right
      exact ⟨d, e, rfl, hr, by simp [hd, hr, hnone]⟩
    · left
      simp [hd, hr, hnone]

/-- Witness for C6 at a concrete response with an empty schema map and no
deserializer. -/
theorem c6_missing_schema_witness :
    parseApiResponseUnknownData ⟨200, some ("text/plain")⟩ Json.null [] [] =
        ParseOutcome.missingSchema
          ("No schema found for content-type: " ++
            getResponseContentType ⟨200, some ("text/plain")⟩) ∨
      ∃ d e, ([] : DeserializerMap).lookup
            (getResponseContentType ⟨200, some ("text/plain")⟩) = some d ∧
        d Json.null (getResponseContentType ⟨200, some ("text/plain")⟩) = Except.error e ∧
        parseApiResponseUnknownData ⟨200, some ("text/plain")⟩ Json.null [] [] =
          ParseOutcome.deserializationError e :=
  c6_missing_schema ⟨200, some ("text/plain")⟩ Json.null [] [] rfl

/-- C6 counterexample: with no schema registered for `application/json` but
a deserializer for it that throws, the result kind is
`deserialization-error`, not `missing-schema` as the claim states. -/
theorem c6_counterexample :
    parseApiResponseUnknownData ⟨200, some ("application/json")⟩ Json.null []
        [(("application/json"), fun _ _ => Except.error (Json.str ("boom")))] =
      ParseOutcome.deserializationError (Json.str ("boom")) ∧
    kindField
        (parseApiResponseUnknownData ⟨200, some ("application/json")⟩ Json.null []
          [(("application/json"), fun _ _ => Except.error (Json.str ("boom")))]) ≠
      some ("missing-schema") := by
  exact ⟨rfl, by decide⟩

/-- A prefix of a list is a substring of it. -/
theorem hasSubstrList_of_isPrefixOf (p l : List Char) (h : p.isPrefixOf l = true) :
    hasSubstrList p l = true := by
  cases l with
  | nil =>
      cases p with
      | nil => rfl
      | cons c t => simp [List.isPrefixOf] at h
  | cons a t => simp [hasSubstrList, h]

/-- Dropping the head of the pattern preserves occurrence: if `c :: p`
occurs in `l` then `p` occurs in `l`. -/
theorem hasSubstrList_tail (p : List Char) (c : Char) (l : List Char)
    (h : hasSubstrList (c :: p) l = true) : hasSubstrList p l = true := by
  induction l with
  | nil => simp [hasSubstrList] at h
  | cons a t ih =>
      simp only [hasSubstrList, Bool.or_eq_true] at h ⊢
      rcases h with h | h
      · simp only [List.isPrefixOf, Bool.and_eq_true] at h
        exact Or.inr (hasSubstrList_of_isPrefixOf p t h.2)
      · exact Or.inr (ih h)

/-- C7 (amended): `parsingStrategy.isJsonLike` is true exactly when the
content-type string contains `json` as a substring anywhere — the code
computes `includes("json") || includes("+json")` and the second disjunct is
subsumed by the first, so strings such as `application/jsonp` also count as
JSON-like. -/
theorem c7_isJsonLike_contains_json (contentType : String) (hasSchema : Bool)
    (contentTypeAnalysis : ContentTypeAnalysis) (hasResponseContentTypeMap : Bool) :
    (determineParsingStrategy contentType hasSchema contentTypeAnalysis
        hasResponseContentTypeMap).isJsonLike = jsIncludes contentType ("json") := by
  show (jsIncludes contentType ("json") || jsIncludes contentType ("+json")) = _
  rcases hb : jsIncludes contentType ("+json") with _ | _
  · simp
  · have : jsIncludes contentType ("json") = true := by
      have := hasSubstrList_tail (("json" : String).data) '+' contentType.data hb
      simpa [jsIncludes] using this
    simp [this]

/-- C7 counterexample: for `application/jsonp` the code reports
`isJsonLike = true`, although the content type matches neither `*/json`
(subtype `json`) nor `*+json` (a `+json` suffix), refuting the claimed
if-and-only-if. -/
theorem c7_counterexample :
    (determineParsingStrategy ("application/jsonp") true
        ⟨[], false, false, false⟩ false).isJsonLike = true ∧
      isJsonLikeSpec ("application/jsonp") = false := by
  decide

/-- C10: the runtime `Content-Type` normalization truncates at the first
`;`, trims and lowercases (a missing header yields `""`), the example
header `application/json; charset=utf-8` resolves to `application/json`,
and `parseApiResponseUnknownData` consults the schema and deserializer maps
only at this normalized key: two maps agreeing there are indistinguishable. -/
theorem c10_content_type_normalization (s : Nat) (raw : String)
    (response : MinimalResponse) (data : Json)
    (schemaMap schemaMap2 : SchemaMap) (deserializers deserializers2 : DeserializerMap)
    (hsm : schemaMap.lookup (getResponseContentType response) =
      schemaMap2.lookup (getResponseContentType response))
    (hds : deserializers.lookup (getResponseContentType response) =
      deserializers2.lookup (getResponseContentType response)) :
    getResponseContentType ⟨s, none⟩ = "" ∧
    getResponseContentType ⟨s, some raw⟩ =
      (if raw = "" then "" else jsToLower (jsTrim (jsTakeBeforeSemi raw))) ∧
    getResponseContentType ⟨s, some ("application/json; charset=utf-8")⟩ =
      "application/json" ∧
    parseApiResponseUnknownData response data schemaMap deserializers =
      parseApiResponseUnknownData response data schemaMap2 deserializers2 := by
  refine ⟨rfl, rfl, rfl, ?_⟩
  unfold parseApiResponseUnknownData parseApiResponseCore
  rw [hsm, hds]

/-- Witness for C10 at concrete maps agreeing at the normalized key. -/
theorem c10_content_type_normalization_witness :
    getResponseContentType ⟨204, none⟩ = "" ∧
    getResponseContentType ⟨204, some ("Text/HTML ; q=1")⟩ =
      (if ("Text/HTML ; q=1" : String) = "" then ""
       else jsToLower (jsTrim (jsTakeBeforeSemi ("Text/HTML ; q=1")))) ∧
    getResponseContentType ⟨204, some ("application/json; charset=utf-8")⟩ =
      "application/json" ∧
    parseApiResponseUnknownData ⟨204, some ("Text/HTML ; q=1")⟩ Json.null [] [] =
      parseApiResponseUnknownData ⟨204, some ("Text/HTML ; q=1")⟩ Json.null
        [(("application/json"), fun j => Except.ok j)] [] :=
  c10_content_type_normalization 204 ("Text/HTML ; q=1")
    ⟨204, some ("Text/HTML ; q=1")⟩ Json.null [] _ [] [] rfl rfl

/-- `addToSet` inserts its argument. -/
theorem mem_addToSet (l : List String) (a : String) : a ∈ addToSet l a := by
  by_cases h : a ∈ l <;> simp [addToSet, h]

/-- `addToSet` preserves distinctness. -/
theorem addToSet_nodup (l : List String) (a : String) (h : l.Nodup) :
    (addToSet l a).Nodup := by
  by_cases hm : a ∈ l <;> simp [addToSet, hm, List.nodup_append, h]

/-- `addToSet` is the identity on present elements. -/
theorem addToSet_of_mem {l : List String} {a : String} (h : a ∈ l) :
    addToSet l a = l := by
  simp [addToSet, h]

/-- After at least one resolution, the iterated import set is unchanged by
further resolutions of the same reference, stays duplicate-free, and
contains the resolved identifier. -/
theorem iterResolveImports_spec (san : String → String)
    (r operationId suffix : String) (imports : List String)
    (hseg : lastSegmentJS r ≠ "") (hnodup : imports.Nodup) :
    ∀ n, 1 ≤ n →
      iterResolveImports san r operationId suffix n imports =
        addToSet imports (san (lastSegmentJS r)) := by
  have hres : ∀ l, resolveSchemaTypeName san (some (SchemaOrRef.ref r))
      operationId suffix l =
      Except.ok (san (lastSegmentJS r), addToSet l (san (lastSegmentJS r))) := by
    intro l
    simp [resolveSchemaTypeName, hseg]
  intro n
  induction n with
  | zero => intro h; omega
  | succ m ih =>
      intro _
      rcases Nat.eq_zero_or_pos m with hm | hm
      · subst hm
        simp [iterResolveImports, hres]
      · have step : iterResolveImports san r operationId suffix (m + 1) imports =
            iterResolveImports san r operationId suffix m
              (addToSet imports (san (lastSegmentJS r))) := by
          simp [iterResolveImports, hres]
        rw [step]
        have hmem : san (lastSegmentJS r) ∈ addToSet imports (san (lastSegmentJS r)) :=
          mem_addToSet _ _
        have hsame : ∀ j, iterResolveImports san r operationId suffix j
            (addToSet imports (san (lastSegmentJS r))) =
            addToSet imports (san (lastSegmentJS r)) := by
          intro j
          induction j with
          | zero => rfl
          | succ i ihj =>
              simp [iterResolveImports, hres, addToSet_of_mem hmem, ihj]
        exact hsame m

/-- C9: a named `$ref` resolves to the sanitized last segment of its path,
and however many times the same reference is resolved, the identifier
occurs exactly once in the resulting type-import set. -/
theorem c9_named_ref_resolution (san : String → String)
    (r operationId suffix : String) (imports : List String) (n : Nat)
    (hseg : lastSegmentJS r ≠ "") (hnodup : imports.Nodup) (hn : 1 ≤ n) :
    resolveSchemaTypeName san (some (SchemaOrRef.ref r)) operationId suffix imports =
      Except.ok (san (lastSegmentJS r), addToSet imports (san (lastSegmentJS r))) ∧
    (iterResolveImports san r operationId suffix n imports).count
      (san (lastSegmentJS r)) = 1 := by
  constructor
  · simp [resolveSchemaTypeName, hseg]
  · rw [iterResolveImports_spec san r operationId suffix imports hseg hnodup n hn]
    exact List.count_eq_one_of_mem (addToSet_nodup _ _ hnodup) (mem_addToSet _ _)

/-- Witness for C9 on a concrete reference resolved three times. -/
theorem c9_named_ref_resolution_witness :
    resolveSchemaTypeName (fun s => s) (some (SchemaOrRef.ref ("#/components/schemas/Pet")))
        ("getPetById") ("200Response") [("Order")] =
      Except.ok
        (lastSegmentJS ("#/components/schemas/Pet"),
          addToSet [("Order")] (lastSegmentJS ("#/components/schemas/Pet"))) ∧
    (iterResolveImports (fun s => s) ("#/components/schemas/Pet") ("getPetById")
        ("200Response") 3 [("Order")]).count
      (lastSegmentJS ("#/components/schemas/Pet")) = 1 :=
  c9_named_ref_resolution (fun s => s) ("#/components/schemas/Pet") ("getPetById")
    ("200Response") [("Order")] 3 (by decide) (by decide) (by decide)

/-- C8: whenever a request body declares a non-empty content-type list, the
recorded default content type of the server request-body map is the first
declared content type. -/
theorem c8_default_content_type (san : String → String) (operation : OperationObject)
    (operationId : String) (imports : List String) (rb : RequestBodyObject)
    (c0 : String × Option SchemaOrRef) (rest : List (String × Option SchemaOrRef))
    (res : ServerRequestBodyMapResult)
    (hrb : operation.requestBody = some rb)
    (hcontent : rb.content = c0 :: rest)
    (hok : generateServerRequestBodyMap san operation operationId imports = Except.ok res) :
    res.defaultContentType = some c0.1 := by
  unfold generateServerRequestBodyMap at hok
  rw [hrb] at hok
  simp only [extractRequestContentTypes, hcontent, List.map_cons] at hok
  rcases hsrb : srbMappings san operationId
      (ContentTypeMapping.mk c0.1 c0.2 :: rest.map (fun kv => ContentTypeMapping.mk kv.1 kv.2))
      imports with e | p
  · rw [hsrb] at hok
    exact Except.noConfusion hok
  · rcases p with ⟨lines, imports'⟩
    rw [hsrb] at hok
    simp only [Except.ok.injEq] at hok
    rw [← hok]

/-- Witness for C8 on a concrete two-entry request body. -/
theorem c8_default_content_type_witness :
    (ServerRequestBodyMapResult.defaultContentType
      { contentTypeCount := 2
        contentTypeMappings :=
          [ContentTypeMapping.mk ("application/json")
              (some (SchemaOrRef.ref ("#/components/schemas/Pet"))),
            ContentTypeMapping.mk ("text/plain") none]
        defaultContentType := some ("application/json")
        requestMapType :=
          "\x7b\n  \"application/json\": PetStrict;\n  \"text/plain\": UpdatePetRequestStrict;\n\x7d"
        shouldGenerateRequestMap := true
        typeImports := [("PetStrict"), ("UpdatePetRequestStrict")] }) =
      some ("application/json") :=
  c8_default_content_type (fun s => s)
    { operationId := some ("updatePet")
      requestBody := some
        { required := true
          content :=
            [(("application/json"), some (SchemaOrRef.ref ("#/components/schemas/Pet"))),
              (("text/plain"), none)] }
      responses := none }
    ("updatePet") []
    { required := true
      content :=
        [(("application/json"), some (SchemaOrRef.ref ("#/components/schemas/Pet"))),
          (("text/plain"), none)] }
    (("application/json"), some (SchemaOrRef.ref ("#/components/schemas/Pet")))
    [(("text/plain"), none)] _ rfl rfl rfl

/-- Membership of a status among the group status codes coincides with
`find?` success. -/
theorem contains_eq_find?_isSome (groups : List ResponseContentTypesGroup) (c : String) :
    (groups.map (fun g => g.statusCode)).contains c =
      (groups.find? (fun g => g.statusCode = c)).isSome := by
  induction groups with
  | nil => rfl
  | cons g gs ih =>
      simp only [List.map_cons, List.contains_cons, List.find?]
      by_cases hp : g.statusCode = c
      · simp [hp]
      · have h1 : (c == g.statusCode) = false := by simp [Ne.symm hp]
        have h2 : (decide (g.statusCode = c)) = false := by simp [hp]
        rw [h1, h2]
        simpa using ih

/-- The members produced for the content types of one status: one typed
member per content type, each carrying that status and content type. -/
theorem unionMembersForGroup_pairs (san : String → String) (useStrict : Bool)
    (operationId statusCode : String) :
    ∀ (cts : List ContentTypeMapping) (imports ms : List _) (imp' : List String),
      unionMembersForGroup san useStrict operationId statusCode cts imports =
        Except.ok (ms, imp') →
      ms.map (fun m => (m.statusCode, m.contentType)) =
        cts.map (fun m => (statusCode, some m.contentType)) := by
  intro cts
  induction cts with
  | nil =>
      intro imports ms imp' h
      simp only [unionMembersForGroup, Except.ok.injEq, Prod.mk.injEq] at h
      rw [← h.1]
      rfl
  | cons m rest ih =>
      intro imports ms imp' h
      unfold unionMembersForGroup at h
      rcases hres : (if useStrict then resolveStrictSchemaTypeName else resolveSchemaTypeName)
          san m.schema operationId (statusCode ++ "Response") imports with e | ⟨dataType, imports'⟩
      · rw [hres] at h
        exact Except.noConfusion h
      · simp only [hres] at h
        rcases hrec : unionMembersForGroup san useStrict operationId statusCode rest imports' with
          e | ⟨ms0, imports''⟩
        · rw [hrec] at h
          exact Except.noConfusion h
        · simp only [hrec, Except.ok.injEq, Prod.mk.injEq] at h
          rw [← h.1]
          simp only [List.map_cons]
          rw [ih imports' ms0 imports'' hrec]

/-- The members produced for one status code equal `specPairsFor`. -/
theorem unionMembersForStatus_pairs (san : String → String) (useStrict : Bool)
    (groups : List ResponseContentTypesGroup) (operationId c : String)
    (imports : List String) (bm : List ResponseUnionMember) (imp' : List String)
    (h : unionMembersForStatus san useStrict groups operationId c imports =
      Except.ok (bm, imp')) :
    bm.map (fun m => (m.statusCode, m.contentType)) = specPairsFor groups c := by
  unfold unionMembersForStatus at h
  unfold specPairsFor
  by_cases hc : (groups.map (fun g => g.statusCode)).contains c = true
  · rw [if_pos hc] at h
    rcases hg : groups.find? (fun g => g.statusCode = c) with _ | g
    · rw [contains_eq_find?_isSome, hg] at hc
      simp at hc
    · rw [hg] at h
      rw [hg]
      exact unionMembersForGroup_pairs san useStrict operationId c g.contentTypes imports bm imp' h
  · rw [if_neg hc] at h
    rcases hg : groups.find? (fun g => g.statusCode = c) with _ | g
    · rw [hg]
      simp only [Except.ok.injEq, Prod.mk.injEq] at h
      rw [← h.1]
      rfl
    · rw [contains_eq_find?_isSome, hg] at hc
      simp at hc

/-- The outer union-generation loop: members are the accumulated ones
followed by the per-status blocks, in status order. -/
theorem unionMembersGo_pairs (san : String → String) (useStrict : Bool)
    (groups : List ResponseContentTypesGroup) (operationId : String) :
    ∀ (codes : List String) (acc : List ResponseUnionMember) (imports : List String)
      (ms : List ResponseUnionMember) (imp' : List String),
      unionMembersGo san useStrict groups operationId codes acc imports =
        Except.ok (ms, imp') →
      ms.map (fun m => (m.statusCode, m.contentType)) =
        acc.map (fun m => (m.statusCode, m.contentType)) ++
          (codes.map (specPairsFor groups)).flatten := by
  intro codes
  induction codes with
  | nil =>
      intro acc imports ms imp' h
      simp only [unionMembersGo, Except.ok.injEq, Prod.mk.injEq] at h
      rw [← h.1]
      simp
  | cons c rest ih =>
      intro acc imports ms imp' h
      unfold unionMembersGo at h
      rcases hs : unionMembersForStatus san useStrict groups operationId c imports with
        e | ⟨bm, imports'⟩
      · rw [hs] at h
        exact Except.noConfusion h
      · rw [hs] at h
        have := ih (acc ++ bm) imports' ms imp' h
        rw [this, List.map_append,
          unionMembersForStatus_pairs san useStrict groups operationId c imports bm imports' hs]
        simp

/-- `buildResponseTypeInfo` reports the status code it was given. -/
theorem buildResponseTypeInfo_statusCode (san : String → String) (code : String)
    (r : ResponseObject) (operation : OperationObject) (imports : List String)
    (hasMap : Bool) (info : ResponseInfo) (imp' : List String)
    (h : buildResponseTypeInfo san code r operation imports hasMap =
      Except.ok (info, imp')) :
    info.statusCode = code := by
  simp only [buildResponseTypeInfo] at h
  split at h
  · split at h
    · exact Except.noConfusion h
    · simp only [Except.ok.injEq, Prod.mk.injEq] at h
      rw [← h.1]
  · simp only [Except.ok.injEq, Prod.mk.injEq] at h
    rw [← h.1]

/-- The numeric-status loop of `collectResponses` reproduces the given
status codes, in order. -/
theorem collectResponsesGo_codes (san : String → String) (operation : OperationObject)
    (resps : List (String × ResponseObject)) (hasMap : Bool) :
    ∀ (codes imports : List String) (infos : List ResponseInfo) (imp' : List String),
      collectResponsesGo san operation resps hasMap codes imports =
        Except.ok (infos, imp') →
      infos.map (fun i => i.statusCode) = codes := by
  intro codes
  induction codes with
  | nil =>
      intro imports infos imp' h
      simp only [collectResponsesGo, Except.ok.injEq, Prod.mk.injEq] at h
      rw [← h.1]
      rfl
  | cons c rest ih =>
      intro imports infos imp' h
      unfold collectResponsesGo at h
      rcases hl : resps.lookup c with _ | r
      · rw [hl] at h
        exact Except.noConfusion h
      · simp only [hl] at h
        rcases hb : buildResponseTypeInfo san c r operation imports hasMap with e | ⟨info, imports'⟩
        · rw [hb] at h
          exact Except.noConfusion h
        · simp only [hb] at h
          rcases hrec : collectResponsesGo san operation resps hasMap rest imports' with
            e | ⟨infos0, imports''⟩
          · rw [hrec] at h
            exact Except.noConfusion h
          · simp only [hrec, Except.ok.injEq, Prod.mk.injEq] at h
            rw [← h.1]
            simp only [List.map_cons]
            rw [buildResponseTypeInfo_statusCode san c r operation imports hasMap info imports' hb,
              ih imports' infos0 imports'' hrec]

/-- A conditional forced/manual member string never equals the error
member. -/
theorem condTypeStr_ne_error (s mn : String) : condTypeStr s mn ≠ "ApiResponseError" := by
  intro h
  have h1 : (condTypeStr s mn).data.take 1 = ['('] := rfl
  rw [h] at h1
  exact absurd h1 (by decide)

/-- A `pushStandard` member string never equals the error member. -/
theorem pushStandardStr_ne_error (info : ResponseInfo) :
    pushStandardStr info ≠ "ApiResponseError" := by
  intro h
  have h1 : (pushStandardStr info).data.take 12 = ("ApiResponse<").data := rfl
  rw [h] at h1
  exact absurd h1 (by decide)

/-- An `ApiResponse<status, unknown>` member string never equals the error
member. -/
theorem apiUnknown_ne_error (s : String) :
    ("ApiResponse<" ++ s ++ ", unknown>") ≠ "ApiResponseError" := by
  intro h
  have h1 : (("ApiResponse<" ++ s ++ ", unknown>")).data.take 12 = ("ApiResponse<").data := rfl
  rw [h] at h1
  exact absurd h1 (by decide)

/-- Appending the error member to error-free members puts it last and
exactly once. -/
theorem concat_error_shape (body : List String)
    (hne : ∀ t ∈ body, t ≠ "ApiResponseError") :
    (body ++ [("ApiResponseError")]).getLast? = some ("ApiResponseError") ∧
    (body ++ [("ApiResponseError")]).count ("ApiResponseError") = 1 := by
  refine ⟨List.getLast?_concat _, ?_⟩
  rw [List.count_append]
  have h0 : body.count ("ApiResponseError") = 0 :=
    List.count_eq_zero.2 (fun hmem => hne _ hmem rfl)
  simp [h0]

/-- `buildUnionTypes` emits one member per collected response info, the
default entry after all numeric entries, and exactly one terminal
`ApiResponseError` member. -/
theorem buildUnionTypes_shape (d : Option ResponseInfo) (mapName : Option String)
    (rs : List ResponseInfo) :
    (buildUnionTypes d mapName rs).length =
      rs.length + (if d.isSome then 1 else 0) + 1 ∧
    (buildUnionTypes d mapName rs).getLast? = some ("ApiResponseError") ∧
    (buildUnionTypes d mapName rs).count ("ApiResponseError") = 1 := by
  unfold buildUnionTypes
  by_cases hm : jsTruthyOptStr mapName = true
  · rw [if_pos hm]
    have hne : ∀ t ∈ (rs.map (fun info =>
        if info.hasSchema then condTypeStr info.statusCode (mapName.getD "")
        else pushStandardStr info) ++
        (match d with
         | some dd =>
             [if dd.hasSchema then condTypeStr ("\"default\"") (mapName.getD "")
              else pushStandardStr dd]
         | none => [])), t ≠ "ApiResponseError" := by
      intro t ht
      rcases List.mem_append.1 ht with ht | ht
      · rcases List.mem_map.1 ht with ⟨info, _, rfl⟩
        by_cases hs : info.hasSchema = true
        · simp only [hs, if_true]
          exact condTypeStr_ne_error _ _
        · simp only [hs, if_false]
          exact pushStandardStr_ne_error _
      · rcases d with _ | dd
        · simp at ht
        · simp only [List.mem_singleton] at ht
          subst ht
          by_cases hs : dd.hasSchema = true
          · simp only [hs, if_true]
            exact condTypeStr_ne_error _ _
          · simp only [hs, if_false]
            exact pushStandardStr_ne_error _
    refine ⟨?_, (concat_error_shape _ hne).1, (concat_error_shape _ hne).2⟩
    rcases d with _ | dd <;> simp
  · rw [if_neg hm]
    have hne : ∀ t ∈ (rs.map (fun info =>
        if info.hasSchema then "ApiResponse<" ++ info.statusCode ++ ", unknown>"
        else pushStandardStr info) ++
        (match d with
         | some dd =>
             [if dd.hasSchema then "ApiResponse<\"default\", unknown>"
              else pushStandardStr dd]
         | none => [])), t ≠ "ApiResponseError" := by
      intro t ht
      rcases List.mem_append.1 ht with ht | ht
      · rcases List.mem_map.1 ht with ⟨info, _, rfl⟩
        by_cases hs : info.hasSchema = true
        · simp only [hs, if_true]
          exact apiUnknown_ne_error _
        · simp only [hs, if_false]
          exact pushStandardStr_ne_error _
      · rcases d with _ | dd
        · simp at ht
        · simp only [List.mem_singleton] at ht
          subst ht
          by_cases hs : dd.hasSchema = true
          · simp only [hs, if_true]
            decide
          · simp only [hs, if_false]
            exact pushStandardStr_ne_error _
    refine ⟨?_, (concat_error_shape _ hne).1, (concat_error_shape _ hne).2⟩
    rcases d with _ | dd <;> simp

/-- C4 (amended): the shared union generator emits exactly one typed member
per (status, content-type) pair of each status with content and exactly one
bare (void) member per declared status without content — and no error
member; the error member is contributed exactly once, in last position, by
the client generator's `buildUnionTypes`, which emits one member per
collected status (not per content-type pair) plus the single terminal
`ApiResponseError`. -/
theorem c4_union_membership (san : String → String) (operation : OperationObject)
    (operationId : String) (imports : List String) (options : ResponseUnionOptions)
    (resps : List (String × ResponseObject)) (r : ResponseUnionResult)
    (d : Option ResponseInfo) (mapName : Option String) (rs : List ResponseInfo)
    (hresp : operation.responses = some resps)
    (hok : generateResponseUnion san operation operationId imports options =
      Except.ok r) :
    r.unionMembers.map (fun m => (m.statusCode, m.contentType)) =
      ((jsSortStatusCodes ((resps.map Prod.fst).filter (fun c => c ≠ "default"))).map
        (specPairsFor (extractResponseContentTypes operation))).flatten ∧
    (buildUnionTypes d mapName rs).length =
      rs.length + (if d.isSome then 1 else 0) + 1 ∧
    (buildUnionTypes d mapName rs).getLast? = some ("ApiResponseError") ∧
    (buildUnionTypes d mapName rs).count ("ApiResponseError") = 1 := by
  refine ⟨?_, buildUnionTypes_shape d mapName rs⟩
  simp only [generateResponseUnion, hresp] at hok
  rcases hgo : unionMembersGo san options.useStrictSchemas
      (extractResponseContentTypes operation) operationId
      (jsSortStatusCodes ((resps.map Prod.fst).filter (fun c => c ≠ "default")))
      [] imports with e | ⟨ms, imp⟩
  · rw [hgo] at hok
    exact Except.noConfusion hok
  · simp only [hgo, Except.ok.injEq] at hok
    rw [← hok]
    have := unionMembersGo_pairs san options.useStrictSchemas
      (extractResponseContentTypes operation) operationId
      (jsSortStatusCodes ((resps.map Prod.fst).filter (fun c => c ≠ "default")))
      [] imports ms imp hgo
    simpa using this

/-- Witness for C4 at a concrete operation with an empty responses object. -/
theorem c4_union_membership_witness :
    (ResponseUnionResult.mk [] [] ("export type opResponse = never;")).unionMembers.map
        (fun m => (m.statusCode, m.contentType)) =
      ((jsSortStatusCodes ((([] : List (String × ResponseObject)).map Prod.fst).filter
          (fun c => c ≠ "default"))).map
        (specPairsFor (extractResponseContentTypes
          { operationId := some ("op"), requestBody := none, responses := some [] }))).flatten ∧
    (buildUnionTypes none none []).length =
      ([] : List ResponseInfo).length + (if (none : Option ResponseInfo).isSome then 1 else 0) + 1 ∧
    (buildUnionTypes none none []).getLast? = some ("ApiResponseError") ∧
    (buildUnionTypes none none []).count ("ApiResponseError") = 1 :=
  c4_union_membership (fun s => s)
    { operationId := some ("op"), requestBody := none, responses := some [] }
    ("op") [] ⟨false⟩ [] (ResponseUnionResult.mk [] [] ("export type opResponse = never;"))
    none none [] rfl rfl

/-- C4 counterexample: for the operation of the claim's example (status 200
with two schema-bearing content types, status 404 without content) the
shared union generator produces exactly 3 members — 2 typed and 1 void,
with no error member — and the client union builder produces 3 member
strings (one conditional member for 200, one void member for 404, one error
member), so neither union has the claimed 4 members. -/
theorem c4_counterexample :
    Except.map (fun r => r.unionMembers.map (fun m => (m.statusCode, m.contentType, m.dataType)))
      (generateResponseUnion (fun s => s)
        { operationId := some ("getThing")
          requestBody := none
          responses := some
            [(("200"), ⟨some
                [(("application/json"), some (SchemaOrRef.ref ("#/components/schemas/A"))),
                 (("application/xml"), some (SchemaOrRef.ref ("#/components/schemas/B")))]⟩),
             (("404"), ⟨none⟩)] }
        ("getThing") [] ⟨false⟩) =
      Except.ok
        [(("200"), some ("application/json"), some ("A")),
         (("200"), some ("application/xml"), some ("B")),
         (("404"), none, none)] ∧
    (buildUnionTypes none (some ("GetThingResponseMap"))
        [⟨some ("application/json"), true, ⟨true, false, true⟩, ("200"), some ("A")⟩,
         ⟨none, false, ⟨false, false, false⟩, ("404"), none⟩]).length = 3 := by
  exact ⟨rfl, rfl⟩

/-- The statuses of the per-status pair blocks are constant. -/
theorem specPairsFor_fst (groups : List ResponseContentTypesGroup) (c : String) :
    (specPairsFor groups c).map Prod.fst =
      List.replicate (specPairsFor groups c).length c := by
  unfold specPairsFor
  rcases hg : groups.find? (fun g => g.statusCode = c) with _ | g <;>
    simp [hg, List.map_map, Function.comp_def, List.map_const']

/-- Flattening constant blocks over a `statusLe`-sorted code list stays
`statusLe`-sorted. -/
theorem pairwise_flatten_statusLe (codes : List String) (f : String → Nat)
    (hpw : codes.Pairwise statusLe) :
    ((codes.map (fun c => List.replicate (f c) c)).flatten).Pairwise statusLe := by
  rw [List.pairwise_flatten]
  refine ⟨?_, ?_⟩
  · intro l hl
    rcases List.mem_map.1 hl with ⟨c, _, rfl⟩
    rw [List.pairwise_replicate]
    right
    exact Int.le_refl (jsStatusKey c)
  · rw [List.pairwise_map]
    refine hpw.imp ?_
    intro a b hab x hx y hy
    rw [List.eq_of_mem_replicate hx, List.eq_of_mem_replicate hy]
    exact hab

/-- C3 (amended): the numeric status codes are processed in ascending
`parseInt` order in both passes — strictly ascending whenever the numeric
values are distinct; the `default` entry, when present, is produced last in
the collection pass (as the separately returned `defaultResponseInfo`,
which `buildUnionTypes` appends after every numeric entry), while the
response-union generation filters the `default` entry out entirely and
emits no member for it. -/
theorem c3_ordering (san : String → String) (operation : OperationObject)
    (operationId : String) (imports imports2 : List String)
    (options : ResponseUnionOptions) (hasMap : Bool)
    (hdist : ((((operation.responses.getD []).map Prod.fst).filter
      (fun c => c ≠ "default")).map jsStatusKey).Nodup) :
    (jsSortStatusCodes (((operation.responses.getD []).map Prod.fst).filter
        (fun c => c ≠ "default"))).Pairwise
      (fun a b => jsStatusKey a < jsStatusKey b) ∧
    (∀ cr imp', collectResponses san operation imports hasMap = Except.ok (cr, imp') →
      cr.responses.map (fun i => i.statusCode) =
        jsSortStatusCodes (((operation.responses.getD []).map Prod.fst).filter
          (fun c => c ≠ "default")) ∧
      (cr.defaultResponseInfo.isSome ↔
        (((operation.responses.getD []).lookup ("default")).isSome))) ∧
    (∀ r, generateResponseUnion san operation operationId imports2 options =
        Except.ok r →
      (r.unionMembers.map (fun m => m.statusCode)).Pairwise statusLe ∧
      ("default") ∉ r.unionMembers.map (fun m => m.statusCode)) := by
  refine ⟨?_, ?_, ?_⟩
  · have hs := List.sorted_insertionSort statusLe
      (((operation.responses.getD []).map Prod.fst).filter (fun c => c ≠ "default"))
    have hperm := List.perm_insertionSort statusLe
      (((operation.responses.getD []).map Prod.fst).filter (fun c => c ≠ "default"))
    have hnd : ((jsSortStatusCodes (((operation.responses.getD []).map Prod.fst).filter
        (fun c => c ≠ "default"))).map jsStatusKey).Nodup :=
      ((hperm.map jsStatusKey).nodup_iff).2 hdist
    have hpne := List.pairwise_map.1 hnd
    exact (hs.and hpne).imp (fun hab => lt_of_le_of_ne hab.1 hab.2)
  · intro cr imp' hok
    rcases hre : operation.responses with _ | resps
    · simp only [collectResponses, hre] at hok
      simp only [Except.ok.injEq, Prod.mk.injEq] at hok
      rw [← hok.1]
      simp [hre, jsSortStatusCodes]
    · simp only [collectResponses, hre] at hok
      rcases hgo : collectResponsesGo san operation resps hasMap
          (jsSortStatusCodes ((resps.map Prod.fst).filter (fun c => c ≠ "default")))
          imports with e | ⟨infos, imp1⟩
      · rw [hgo] at hok
        exact Except.noConfusion hok
      · simp only [hgo] at hok
        rcases hld : resps.lookup ("default") with _ | dr
        · simp only [hld, Except.ok.injEq, Prod.mk.injEq] at hok
          rw [← hok.1]
          refine ⟨collectResponsesGo_codes san operation resps hasMap _ imports infos imp1 hgo, ?_⟩
          simp [hre, hld]
        · simp only [hld] at hok
          rcases hbd : buildResponseTypeInfo san ("default") dr operation imp1 hasMap with
            e | ⟨dinfo, imp2⟩
          · rw [hbd] at hok
            exact Except.noConfusion hok
          · simp only [hbd, Except.ok.injEq, Prod.mk.injEq] at hok
            rw [← hok.1]
            refine ⟨collectResponsesGo_codes san operation resps hasMap _ imports infos imp1 hgo, ?_⟩
            simp [hre, hld]
  · intro r hok
    rcases hre : operation.responses with _ | resps
    · simp only [generateResponseUnion, hre, Except.ok.injEq] at hok
      rw [← hok]
      constructor
      · simp
      · simp
    · simp only [generateResponseUnion, hre] at hok
      rcases hgo : unionMembersGo san options.useStrictSchemas
          (extractResponseContentTypes operation) operationId
          (jsSortStatusCodes ((resps.map Prod.fst).filter (fun c => c ≠ "default")))
          [] imports2 with e | ⟨ms, imp⟩
      · rw [hgo] at hok
        exact Except.noConfusion hok
      · simp only [hgo, Except.ok.injEq] at hok
        rw [← hok]
        have hpairs := unionMembersGo_pairs san options.useStrictSchemas
          (extractResponseContentTypes operation) operationId
          (jsSortStatusCodes ((resps.map Prod.fst).filter (fun c => c ≠ "default")))
          [] imports2 ms imp hgo
        simp only [List.map_nil, List.nil_append] at hpairs
        have hstat : ms.map (fun m => m.statusCode) =
            ((jsSortStatusCodes ((resps.map Prod.fst).filter (fun c => c ≠ "default"))).map
              (fun c => List.replicate
                ((specPairsFor (extractResponseContentTypes operation) c).length) c)).flatten := by
          have h1 := congrArg (List.map Prod.fst) hpairs
          rw [List.map_map, List.map_flatten, List.map_map] at h1
          have h2 : (List.map Prod.fst ∘ specPairsFor (extractResponseContentTypes operation)) =
              (fun c => List.replicate
                ((specPairsFor (extractResponseContentTypes operation) c).length) c) :=
            funext (specPairsFor_fst (extractResponseContentTypes operation))
          rw [h2] at h1
          exact h1
        constructor
        · rw [hstat]
          exact pairwise_flatten_statusLe _ _ (List.sorted_insertionSort statusLe _)
        · rw [hstat]
          intro hmem
          rcases List.mem_flatten.1 hmem with ⟨l, hl, hml⟩
          rcases List.mem_map.1 hl with ⟨c, hc, rfl⟩
          have hcd := List.eq_of_mem_replicate hml
          subst hcd
          have hcmem := (List.perm_insertionSort statusLe _).subset hc
          have := List.of_mem_filter hcmem
          simp at this

/-- Witness for C3 at a concrete operation with statuses 404, 200, default. -/
theorem c3_ordering_witness :
    (jsSortStatusCodes [("404"), ("200")]).Pairwise
      (fun a b => jsStatusKey a < jsStatusKey b) :=
  (c3_ordering (fun s => s)
    { operationId := some ("op")
      requestBody := none
      responses := some
        [(("404"), ⟨none⟩), (("200"), ⟨none⟩), (("default"), ⟨none⟩)] }
    ("op") [] [] ⟨false⟩ false (by decide)).1

/-- C3 counterexample: an operation declaring a schema-bearing `default`
response (plus a 200) yields union members for status 200 only — the
`default` entry is not produced at all by the response-union generation,
refuting the claim that it is produced last there. -/
theorem c3_counterexample :
    Except.map (fun r => r.unionMembers.map (fun m => m.statusCode))
      (generateResponseUnion (fun s => s)
        { operationId := some ("op")
          requestBody := none
          responses := some
            [(("default"), ⟨some
                [(("application/json"), some (SchemaOrRef.ref ("#/components/schemas/E")))]⟩),
             (("200"), ⟨none⟩)] }
        ("op") [] ⟨false⟩) = Except.ok [("200")] := by
  rfl

/-- The decimal numeral of a natural number is never empty. -/
theorem natDecStr_ne_empty (n : Nat) : natDecStr n ≠ "" := by
  unfold natDecStr
  by_cases hn : n = 0
  · rw [if_pos hn]
    decide
  · rw [if_neg hn]
    intro h
    have hlen := congrArg String.length h
    rw [List.length_asString] at hlen
    simp only [List.length_reverse, List.length_map] at hlen
    have hne := (Nat.digits_ne_nil_iff_ne_zero (b := 10)).2 hn
    have hz : ("" : String).length = 0 := rfl
    rw [hz, List.length_eq_zero] at hlen
    exact hne hlen

/-- `Nat.digitChar` is injective below 10. -/
theorem digitChar_inj_lt (a b : Nat) (ha : a < 10) (hb : b < 10)
    (h : Nat.digitChar a = Nat.digitChar b) : a = b := by
  have hfin : ∀ (x y : Fin 10), Nat.digitChar x.1 = Nat.digitChar y.1 → x = y := by decide
  have := hfin ⟨a, ha⟩ ⟨b, hb⟩ h
  simpa using congrArg Fin.val this

/-- Mapping `digitChar` over digit lists is injective. -/
theorem map_digitChar_inj : ∀ (l1 l2 : List Nat), (∀ d ∈ l1, d < 10) → (∀ d ∈ l2, d < 10) →
    l1.map Nat.digitChar = l2.map Nat.digitChar → l1 = l2
  | [], [], _, _, _ => rfl
  | [], _ :: _, _, _, h => by simp at h
  | _ :: _, [], _, _, h => by simp at h
  | a :: l1, b :: l2, h1, h2, h => by
      simp only [List.map_cons, List.cons.injEq] at h
      have hab := digitChar_inj_lt a b (h1 a (by simp)) (h2 b (by simp)) h.1
      have := map_digitChar_inj l1 l2 (fun d hd => h1 d (by simp [hd]))
        (fun d hd => h2 d (by simp [hd])) h.2
      rw [hab, this]

/-- A positive number's numeral is not `"0"`. -/
theorem natDecStr_ne_zero_str (n : Nat) (hn : n ≠ 0) : natDecStr n ≠ "0" := by
  unfold natDecStr
  rw [if_neg hn]
  intro h
  have hd := congrArg String.toList h
  rw [List.toList_asString] at hd
  have hrev := congrArg List.reverse hd
  rw [List.reverse_reverse] at hrev
  have hds : Nat.digits 10 n = [0] := by
    apply map_digitChar_inj (Nat.digits 10 n) [0]
      (fun d hd => Nat.digits_lt_base (by norm_num) hd) (by simp)
    rw [hrev]
    decide
  have := Nat.ofDigits_digits 10 n
  rw [hds] at this
  simp [Nat.ofDigits] at this
  exact hn this.symm

/-- The decimal numeral map is injective. -/
theorem natDecStr_inj (m n : Nat) (h : natDecStr m = natDecStr n) : m = n := by
  by_cases hm : m = 0 <;> by_cases hn : n = 0
  · rw [hm, hn]
  · exfalso
    apply natDecStr_ne_zero_str n hn
    rw [← h, hm]
    rfl
  · exfalso
    apply natDecStr_ne_zero_str m hm
    rw [h, hn]
    rfl
  · have hmu : natDecStr m = ((Nat.digits 10 m).map Nat.digitChar).reverse.asString := by
      unfold natDecStr
      rw [if_neg hm]
    have hnu : natDecStr n = ((Nat.digits 10 n).map Nat.digitChar).reverse.asString := by
      unfold natDecStr
      rw [if_neg hn]
    rw [hmu, hnu, List.asString_inj] at h
    have hrev := congrArg List.reverse h
    rw [List.reverse_reverse, List.reverse_reverse] at hrev
    have hds := map_digitChar_inj (Nat.digits 10 m) (Nat.digits 10 n)
      (fun d hd => Nat.digits_lt_base (by norm_num) hd)
      (fun d hd => Nat.digits_lt_base (by norm_num) hd) hrev
    have h1 := Nat.ofDigits_digits 10 m
    have h2 := Nat.ofDigits_digits 10 n
    rw [hds] at h1
    rw [h2] at h1
    exact h1.symm

/-- Distinct candidate indices give distinct candidate names. -/
theorem candAt_inj (k : String) (i j : Nat) (hi : 1 ≤ i) (hj : 1 ≤ j)
    (h : candAt k i = candAt k j) : i = j := by
  have hlen6 : ("Schema" : String).length = 6 := rfl
  unfold candAt at h
  by_cases h2i : i < 2 <;> by_cases h2j : j < 2
  · omega
  · rw [if_pos h2i, if_neg h2j] at h
    exfalso
    have hlen := congrArg String.length h
    simp only [String.length_append] at hlen
    have hne := natDecStr_ne_empty j
    have hpos : (natDecStr j).length ≠ 0 := by
      intro h0
      exact hne (String.ext (List.length_eq_zero.1 h0))
    omega
  · rw [if_neg h2i, if_pos h2j] at h
    exfalso
    have hlen := congrArg String.length h
    simp only [String.length_append] at hlen
    have hne := natDecStr_ne_empty i
    have hpos : (natDecStr i).length ≠ 0 := by
      intro h0
      exact hne (String.ext (List.length_eq_zero.1 h0))
    omega
  · rw [if_neg h2i, if_neg h2j] at h
    have hd := congrArg String.data h
    have hd3 : (natDecStr i).data = (natDecStr j).data := by
      simpa using hd
    exact natDecStr_inj i j (String.ext hd3)

/-- The candidate search depends only on the values of `bad`. -/
theorem findCandAux_congr (bad1 bad2 : String → Bool) (k : String)
    (hpt : ∀ c, bad1 c = bad2 c) :
    ∀ (fuel i : Nat), findCandAux bad1 k i fuel = findCandAux bad2 k i fuel := by
  intro fuel
  induction fuel with
  | zero => intro i; rfl
  | succ f ih =>
      intro i
      unfold findCandAux
      rw [hpt]
      cases hb : bad2 (candAt k i) <;> simp [hb, ih]

/-- The fueled candidate search returns the first non-bad candidate,
provided one exists within the fuel window. -/
theorem findCandAux_spec (bad : String → Bool) (k : String) :
    ∀ (fuel i j : Nat), i ≤ j → j ≤ i + fuel → bad (candAt k j) = false →
      ∃ j0, i ≤ j0 ∧ bad (candAt k j0) = false ∧
        findCandAux bad k i fuel = candAt k j0 ∧
        ∀ j', i ≤ j' → j' < j0 → bad (candAt k j') = true := by
  intro fuel
  induction fuel with
  | zero =>
      intro i j h1 h2 h3
      have hj : j = i := by omega
      subst hj
      exact ⟨j, Nat.le_refl j, h3, rfl, fun j' h4 h5 => absurd h4 (by omega)⟩
  | succ f ih =>
      intro i j h1 h2 h3
      by_cases hb : bad (candAt k i) = true
      · have hij : i + 1 ≤ j := by
          rcases Nat.eq_or_lt_of_le h1 with he | hlt
          · rw [he] at hb
            rw [h3] at hb
            exact absurd hb (by simp)
          · omega
        obtain ⟨j0, hj0i, hj0b, hj0e, hj0min⟩ := ih (i + 1) j hij (by omega) h3
        refine ⟨j0, by omega, hj0b, ?_, ?_⟩
        · unfold findCandAux
          rw [hb, if_pos rfl]
          exact hj0e
        · intro j' h4 h5
          rcases Nat.eq_or_lt_of_le h4 with he | h6
          · rw [← he]
            exact hb
          · exact hj0min j' (by omega) h5
      · have hbf : bad (candAt k i) = false := by
          cases hc : bad (candAt k i)
          · rfl
          · exact absurd hc hb
        refine ⟨i, Nat.le_refl i, hbf, ?_, fun j' h4 h5 => absurd h4 (by omega)⟩
        unfold findCandAux
        rw [hbf]
        simp

/-- Pigeonhole: among the first `keys.length + 1` candidates for `k`, at
least one is not a member of `keys`. -/
theorem exists_free_candidate (keys : List String) (k : String) :
    ∃ j, 1 ≤ j ∧ j ≤ keys.length + 1 ∧ keys.contains (candAt k j) = false := by
  by_contra hcon
  push_neg at hcon
  have hall : ∀ j, 1 ≤ j → j ≤ keys.length + 1 → candAt k j ∈ keys := by
    intro j h1 h2
    have hne := hcon j h1 h2
    have hb : keys.contains (candAt k j) = true := by
      cases hcb : keys.contains (candAt k j)
      · exact absurd hcb hne
      · rfl
    exact List.elem_iff.1 hb
  have hnodup : ((List.range (keys.length + 1)).map (fun t => candAt k (t + 1))).Nodup := by
    refine List.Nodup.map_on ?_ (List.nodup_range _)
    intro x hx y hy hxy
    have := candAt_inj k (x + 1) (y + 1) (by omega) (by omega) hxy
    omega
  have hsub : ((List.range (keys.length + 1)).map (fun t => candAt k (t + 1))) ⊆ keys := by
    intro c hc
    rcases List.mem_map.1 hc with ⟨t, ht, rfl⟩
    have := List.mem_range.1 ht
    exact hall (t + 1) (by omega) (by omega)
  have hle := (List.subperm_of_subset hnodup hsub).length_le
  simp only [List.length_map, List.length_range] at hle
  omega

/-- Under the document type contract (schema values are objects, hence
truthy), the truthy-lookup test is key membership. -/
theorem truthyLookup_eq_contains (schemas : List (String × Json)) :
    (∀ p ∈ schemas, truthy p.2 = true) → ∀ c,
      truthyLookup schemas c = (schemas.map Prod.fst).contains c := by
  induction schemas with
  | nil => intro _ c; rfl
  | cons p ps ih =>
      intro htruthy c
      rcases p with ⟨pk, pv⟩
      by_cases hc : c = pk
      · subst hc
        simp [truthyLookup, List.lookup, htruthy (c, pv) (by simp)]
      · have hbeq : (c == pk) = false := by simp [hc]
        have htail := ih (fun q hq => htruthy q (by simp [hq])) c
        simp only [truthyLookup, List.lookup, hbeq] at htail ⊢
        rw [htail]
        simp [List.contains_cons, hbeq]

/-- Closed form of the rename-map fold: one entry per reserved schema key,
in key order, whose candidate is searched against key membership alone
(the accumulated rename entries are themselves schema keys, so they add
nothing to the bad set). -/
theorem renameMapFor_go (schemas : List (String × Json))
    (htruthy : ∀ p ∈ schemas, truthy p.2 = true) :
    ∀ (l : List (String × Json)) (done : List (String × String)),
      (∀ dk ∈ done.map Prod.fst, dk ∈ schemas.map Prod.fst) →
      (∀ p ∈ l, p.1 ∈ schemas.map Prod.fst) →
      l.foldl (fun done kv =>
          if kv.1 ∈ reservedNames then
            done ++ [(kv.1,
              findCandAux
                (fun c => truthyLookup schemas c || (done.map Prod.fst).contains c)
                kv.1 1 (2 * schemas.length + 1))]
          else done) done =
        done ++ ((l.map Prod.fst).filter (fun k => decide (k ∈ reservedNames))).map
          (fun k => (k, findCandAux (fun c => (schemas.map Prod.fst).contains c) k 1
            (2 * schemas.length + 1))) := by
  intro l
  induction l with
  | nil =>
      intro done _ _
      simp
  | cons kv rest ih =>
      intro done hdone hl
      simp only [List.foldl_cons]
      by_cases hres : kv.1 ∈ reservedNames
      · rw [if_pos hres]
        have hcongr : findCandAux
            (fun c => truthyLookup schemas c || (done.map Prod.fst).contains c) kv.1 1
            (2 * schemas.length + 1) =
          findCandAux (fun c => (schemas.map Prod.fst).contains c) kv.1 1
            (2 * schemas.length + 1) := by
          apply findCandAux_congr
          intro c
          rw [truthyLookup_eq_contains schemas htruthy c]
          cases hd : (done.map Prod.fst).contains c
          · simp
          · have hmem : c ∈ schemas.map Prod.fst := hdone c (List.elem_iff.1 hd)
            have hc2 : (schemas.map Prod.fst).contains c = true := List.elem_iff.2 hmem
            rw [hc2]
            simp
        rw [hcongr]
        rw [ih (done ++ [(kv.1,
            findCandAux (fun c => (schemas.map Prod.fst).contains c) kv.1 1
              (2 * schemas.length + 1))])
          (by
            intro dk hdk
            simp only [List.map_append, List.map_cons, List.map_nil, List.mem_append,
              List.mem_singleton] at hdk
            rcases hdk with hdk | hdk
            · exact hdone dk hdk
            · rw [hdk]
              exact hl kv (by simp))
          (fun p hp => hl p (by simp [hp]))]
        simp [hres]
      · rw [if_neg hres]
        rw [ih done hdone (fun p hp => hl p (by simp [hp]))]
        simp [hres]

/-- The rename map, in closed form. -/
theorem renameMapFor_closed (schemas : List (String × Json))
    (htruthy : ∀ p ∈ schemas, truthy p.2 = true) :
    renameMapFor schemas =
      ((schemas.map Prod.fst).filter (fun k => decide (k ∈ reservedNames))).map
        (fun k => (k, findCandAux (fun c => (schemas.map Prod.fst).contains c) k 1
          (2 * schemas.length + 1))) := by
  unfold renameMapFor
  rw [renameMapFor_go schemas htruthy schemas [] (by simp)
    (fun p hp => List.mem_map_of_mem Prod.fst hp)]
  simp

/-- Lookup in a key-indexed map of the form `k ↦ (k, f k)`. -/
theorem lookup_keyed_map (f : String → String) (l : List String) (k : String) :
    ((l.map (fun k0 => (k0, f k0))).lookup k) = if k ∈ l then some (f k) else none := by
  induction l with
  | nil => simp
  | cons a rest ih =>
      by_cases hk : k = a
      · subst hk
        simp [List.lookup]
      · have hbeq : (k == a) = false := by simp [hk]
        simp [List.lookup, hbeq, ih, hk]

/-- `collectRefNames` on an array, in plain-map form. -/
theorem collectRefNames_arr (items : List Json) :
    collectRefNames (Json.arr items) = (items.map collectRefNames).flatten := by
  rw [collectRefNames]
  congr 1
  exact List.attach_map_val items collectRefNames

/-- `collectRefNames` on an object, in plain-map form. -/
theorem collectRefNames_obj (fields : List (String × Json)) :
    collectRefNames (Json.obj fields) =
      (fields.map (fun f => (refNameOf f.1 f.2).toList ++ collectRefNames f.2)).flatten := by
  rw [collectRefNames]
  congr 1
  exact List.attach_map_val fields
    (fun f => (refNameOf f.1 f.2).toList ++ collectRefNames f.2)

/-- `rewriteRefs` on an array, in plain-map form. -/
theorem rewriteRefs_arr (rm : List (String × String)) (items : List Json) :
    rewriteRefs rm (Json.arr items) = Json.arr (items.map (rewriteRefs rm)) := by
  rw [rewriteRefs]
  congr 1
  exact List.attach_map_val items (rewriteRefs rm)

/-- `rewriteRefs` on an object, in plain-map form. -/
theorem rewriteRefs_obj (rm : List (String × String)) (fields : List (String × Json)) :
    rewriteRefs rm (Json.obj fields) = Json.obj (fields.map (fun p =>
      (p.1,
        if p.1 = "$ref" then
          match hp : p.2 with
          | Json.str s => Json.str (rewriteRefStr rm s)
          | v => rewriteRefs rm v
        else rewriteRefs rm p.2))) := by
  rw [rewriteRefs]
  congr 1
  exact List.attach_map_val fields
    (fun p =>
      (p.1,
        if p.1 = "$ref" then
          match hp : p.2 with
          | Json.str s => Json.str (rewriteRefStr rm s)
          | v => rewriteRefs rm v
        else rewriteRefs rm p.2))

/-- One object field after the walk: a string value under a `$ref` key is
rewritten, every other value is walked recursively. -/
theorem rewriteField_value (rm : List (String × String)) (k : String) (v : Json) :
    (if k = "$ref" then
        match hp : v with
        | Json.str s => Json.str (rewriteRefStr rm s)
        | v' => rewriteRefs rm v'
      else rewriteRefs rm v) =
      (match v with
       | Json.str s =>
           if k = "$ref" then Json.str (rewriteRefStr rm s) else Json.str s
       | v' => rewriteRefs rm v') := by
  by_cases hk : k = "$ref" <;> cases v <;> simp [hk, rewriteRefs]

/-- A rewritten value is a string only when the original was that string
(the walk rewrites `$ref` fields in place but never changes constructors
elsewhere). -/
theorem rewriteRefs_eq_str_iff (rm : List (String × String)) (v : Json) (s : String) :
    rewriteRefs rm v = Json.str s ↔ v = Json.str s := by
  cases v <;> simp [rewriteRefs]

/-- A reference formed from the prefix starts with the prefix. -/
theorem jsStartsWith_append (p t : String) : jsStartsWith (p ++ t) p = true := by
  unfold jsStartsWith
  rw [String.data_append]
  exact List.isPrefixOf_iff_prefix.2 (List.prefix_append _ _)

/-- Dropping the prefix from a prefixed string leaves the suffix. -/
theorem jsDropChars_append (p t : String) : jsDropChars (p ++ t) p.length = t := by
  unfold jsDropChars
  rw [String.data_append]
  have hlp : p.length = p.data.length := rfl
  rw [hlp, List.drop_left]
  exact String.asString_toList t

/-- Present keys have successful lookups. -/
theorem lookup_isSome_of_mem_keys (l : List (String × String)) (k : String)
    (h : k ∈ l.map Prod.fst) : (l.lookup k).isSome := by
  induction l with
  | nil => simp at h
  | cons p ps ih =>
      rcases p with ⟨pk, pv⟩
      by_cases hk : k = pk
      · subst hk
        simp [List.lookup]
      · have hbeq : (k == pk) = false := by simp [hk]
        simp only [List.map_cons, List.mem_cons] at h
        rcases h with h | h
        · exact absurd h hk
        · simp only [List.lookup, hbeq]
          exact ih h

/-- A rewritten `$ref` string never points at a renamed original name,
provided every rename target avoids the renamed names. -/
theorem refNameOf_rewriteStr_no_old (rm : List (String × String))
    (hnew : ∀ o n, rm.lookup o = some n → n ∉ rm.map Prod.fst)
    (old : String) (hold : old ∈ rm.map Prod.fst) (s0 : String) :
    old ∉ (refNameOf ("$ref") (Json.str (rewriteRefStr rm s0))).toList := by
  intro hml
  have h0 : refNameOf ("$ref") (Json.str (rewriteRefStr rm s0)) =
      (if jsStartsWith (rewriteRefStr rm s0) refPrefix = true then
        some (jsDropChars (rewriteRefStr rm s0) refPrefix.length) else none) := by
    simp [refNameOf]
  rw [h0] at hml
  unfold rewriteRefStr at hml
  by_cases hsw : jsStartsWith s0 refPrefix = true
  · rw [if_pos hsw] at hml
    rcases hlk : rm.lookup (jsDropChars s0 refPrefix.length) with _ | n
    · rw [hlk] at hml
      rw [if_pos hsw] at hml
      simp only [Option.toList_some, List.mem_singleton] at hml
      subst hml
      have hsome := lookup_isSome_of_mem_keys rm _ hold
      rw [hlk] at hsome
      simp at hsome
    · rw [hlk] at hml
      rw [if_pos (jsStartsWith_append refPrefix n)] at hml
      rw [jsDropChars_append refPrefix n] at hml
      simp only [Option.toList_some, List.mem_singleton] at hml
      subst hml
      exact hnew _ old hlk hold
  · rw [if_neg hsw] at hml
    rw [if_neg hsw] at hml
    simp at hml

/-- After the rewrite walk, no `$ref` of the form
`#/components/schemas/<old>` with `old` a renamed original name survives
anywhere in the tree, provided every rename target avoids the renamed
names. -/
theorem not_mem_collect_rewrite (rm : List (String × String))
    (hnew : ∀ o n, rm.lookup o = some n → n ∉ rm.map Prod.fst)
    (old : String) (hold : old ∈ rm.map Prod.fst) :
    ∀ j, old ∉ collectRefNames (rewriteRefs rm j)
  | Json.null => by simp [rewriteRefs, collectRefNames]
  | Json.bool b => by simp [rewriteRefs, collectRefNames]
  | Json.num n => by simp [rewriteRefs, collectRefNames]
  | Json.str s => by simp [rewriteRefs, collectRefNames]
  | Json.arr items => by
      rw [rewriteRefs_arr, collectRefNames_arr]
      intro hmem
      rw [List.map_map, List.mem_flatten] at hmem
      obtain ⟨l, hl, hml⟩ := hmem
      rw [List.mem_map] at hl
      obtain ⟨z, hz, rfl⟩ := hl
      exact not_mem_collect_rewrite rm hnew old hold z hml
  | Json.obj fields => by
      rw [rewriteRefs_obj, collectRefNames_obj]
      intro hmem
      rw [List.map_map, List.mem_flatten] at hmem
      obtain ⟨l, hl, hml⟩ := hmem
      rw [List.mem_map] at hl
      obtain ⟨⟨k, v⟩, hkv, rfl⟩ := hl
      simp only [Function.comp_apply] at hml
      rw [rewriteField_value rm k v] at hml
      rw [List.mem_append] at hml
      cases v with
      | str s0 =>
          rw [show (match Json.str s0 with
              | Json.str s => if k = "$ref" then Json.str (rewriteRefStr rm s) else Json.str s
              | v' => rewriteRefs rm v') =
            (if k = "$ref" then Json.str (rewriteRefStr rm s0) else Json.str s0) from rfl] at hml
          by_cases hk : k = "$ref"
          · rw [if_pos hk] at hml
            rcases hml with hml | hml
            · rw [hk] at hml
              exact refNameOf_rewriteStr_no_old rm hnew old hold s0 hml
            · simp [collectRefNames] at hml
          · rw [if_neg hk] at hml
            rcases hml with hml | hml
            · simp [refNameOf, hk] at hml
            · simp [collectRefNames] at hml
      | null =>
          rcases hml with hml | hml
          · simp [refNameOf, rewriteRefs] at hml
          · exact not_mem_collect_rewrite rm hnew old hold Json.null hml
      | bool b =>
          rcases hml with hml | hml
          · simp [refNameOf, rewriteRefs] at hml
          · exact not_mem_collect_rewrite rm hnew old hold (Json.bool b) hml
      | num n =>
          rcases hml with hml | hml
          · simp [refNameOf, rewriteRefs] at hml
          · exact not_mem_collect_rewrite rm hnew old hold (Json.num n) hml
      | arr items =>
          rcases hml with hml | hml
          · simp [refNameOf, rewriteRefs_arr] at hml
          · exact not_mem_collect_rewrite rm hnew old hold (Json.arr items) hml
      | obj fs =>
          rcases hml with hml | hml
          · simp [refNameOf, rewriteRefs_obj] at hml
          · exact not_mem_collect_rewrite rm hnew old hold (Json.obj fs) hml
termination_by j => sizeOf j
decreasing_by
  · have := List.sizeOf_lt_of_mem hz
    simp_wf
    omega
  all_goals
    have h1 := List.sizeOf_lt_of_mem hkv
    simp_wf
    simp at h1
    omega


/-- The candidate picked for any name is never an existing schema key. -/
theorem findCand_free (schemas : List (String × Json)) (k0 : String) :
    (schemas.map Prod.fst).contains
      (findCandAux (fun c => (schemas.map Prod.fst).contains c) k0 1
        (2 * schemas.length + 1)) = false := by
  obtain ⟨j, hj1, hj2, hjf⟩ := exists_free_candidate (schemas.map Prod.fst) k0
  have hlen : (schemas.map Prod.fst).length = schemas.length := by simp
  obtain ⟨j0, hj0i, hj0b, hj0e, hj0min⟩ :=
    findCandAux_spec (fun c => (schemas.map Prod.fst).contains c) k0
      (2 * schemas.length + 1) 1 j hj1 (by omega) hjf
  rw [hj0e]
  exact hj0b

/-- C2: every top-level schema whose name is reserved is renamed to the
first candidate `<Name>Schema`, `<Name>Schema2`, ... not already present
among the schema names; other names are untouched; the schema map keys are
rewritten through the rename map; and afterwards no
`#/components/schemas/<oldName>` reference to any renamed (pre-rename) name
remains anywhere in the document. -/
theorem c2_rename_collision_repair (doc : Document)
    (hkeys : (doc.schemas.map Prod.fst).Nodup)
    (htruthy : ∀ p ∈ doc.schemas, truthy p.2 = true) :
    (∀ k, k ∈ doc.schemas.map Prod.fst → k ∈ reservedNames →
      ∃ i, 1 ≤ i ∧
        (renameMapFor doc.schemas).lookup k = some (candAt k i) ∧
        candAt k i ∉ doc.schemas.map Prod.fst ∧
        (∀ j, 1 ≤ j → j < i → candAt k j ∈ doc.schemas.map Prod.fst)) ∧
    (∀ k, k ∉ reservedNames → (renameMapFor doc.schemas).lookup k = none) ∧
    ((renameConflictingSchemas doc).1.schemas.map Prod.fst =
      doc.schemas.map (fun kv => (((renameMapFor doc.schemas).lookup kv.1).getD kv.1))) ∧
    (∀ old, ((renameMapFor doc.schemas).lookup old).isSome →
      old ∉ docRefNames (renameConflictingSchemas doc).1) := by
  have hclosed := renameMapFor_closed doc.schemas htruthy
  have hlookup : ∀ k, (renameMapFor doc.schemas).lookup k =
      if k ∈ (doc.schemas.map Prod.fst).filter (fun k => decide (k ∈ reservedNames)) then
        some (findCandAux (fun c => (doc.schemas.map Prod.fst).contains c) k 1
          (2 * doc.schemas.length + 1))
      else none := by
    intro k
    rw [hclosed]
    exact lookup_keyed_map _ _ k
  have hrmkeys : (renameMapFor doc.schemas).map Prod.fst =
      (doc.schemas.map Prod.fst).filter (fun k => decide (k ∈ reservedNames)) := by
    rw [hclosed]
    rw [List.map_map]
    simp [Function.comp_def]
  have hnew : ∀ o n, (renameMapFor doc.schemas).lookup o = some n →
      n ∉ (renameMapFor doc.schemas).map Prod.fst := by
    intro o n hon
    rw [hlookup o] at hon
    by_cases ho : o ∈ (doc.schemas.map Prod.fst).filter (fun k => decide (k ∈ reservedNames))
    · rw [if_pos ho] at hon
      have hn : n = findCandAux (fun c => (doc.schemas.map Prod.fst).contains c) o 1
          (2 * doc.schemas.length + 1) := by
        injection hon with h
        exact h.symm
      intro hmem
      rw [hrmkeys] at hmem
      have hinkeys : n ∈ doc.schemas.map Prod.fst := (List.mem_filter.1 hmem).1
      have hcontains : (doc.schemas.map Prod.fst).contains n = true :=
        List.elem_iff.2 hinkeys
      rw [hn] at hcontains
      rw [findCand_free doc.schemas o] at hcontains
      exact Bool.noConfusion hcontains
    · rw [if_neg ho] at hon
      exact Option.noConfusion hon
  refine ⟨?_, ?_, ?_, ?_⟩
  · intro k hk hres
    have hkf : k ∈ (doc.schemas.map Prod.fst).filter (fun k => decide (k ∈ reservedNames)) :=
      List.mem_filter.2 ⟨hk, by simp [hres]⟩
    have hlk := hlookup k
    rw [if_pos hkf] at hlk
    obtain ⟨j, hj1, hj2, hjf⟩ := exists_free_candidate (doc.schemas.map Prod.fst) k
    have hlen : (doc.schemas.map Prod.fst).length = doc.schemas.length := by simp
    obtain ⟨j0, hj0i, hj0b, hj0e, hj0min⟩ :=
      findCandAux_spec (fun c => (doc.schemas.map Prod.fst).contains c) k
        (2 * doc.schemas.length + 1) 1 j hj1 (by omega) hjf
    refine ⟨j0, hj0i, ?_, ?_, ?_⟩
    · rw [hlk, hj0e]
    · intro hmem
      have h2 : (doc.schemas.map Prod.fst).contains (candAt k j0) = true :=
        List.elem_iff.2 hmem
      rw [hj0b] at h2
      exact Bool.noConfusion h2
    · intro j' h1 h2
      exact List.elem_iff.1 (hj0min j' h1 h2)
  · intro k hres
    rw [hlookup k, if_neg]
    intro hc
    exact hres (by simpa using (List.mem_filter.1 hc).2)
  · unfold renameConflictingSchemas
    by_cases he : (renameMapFor doc.schemas).isEmpty = true
    · rw [if_pos he]
      have hrm : renameMapFor doc.schemas = [] := List.isEmpty_iff.1 he
      simp [hrm]
    · rw [if_neg he]
      simp [List.map_map, Function.comp_def]
  · intro old hsome
    have hold : old ∈ (renameMapFor doc.schemas).map Prod.fst := by
      rw [hlookup old] at hsome
      by_cases ho : old ∈ (doc.schemas.map Prod.fst).filter (fun k => decide (k ∈ reservedNames))
      · rw [hrmkeys]
        exact ho
      · rw [if_neg ho] at hsome
        simp at hsome
    unfold renameConflictingSchemas
    by_cases he : (renameMapFor doc.schemas).isEmpty = true
    · have hrm : renameMapFor doc.schemas = [] := List.isEmpty_iff.1 he
      rw [hrm] at hsome
      simp [List.lookup] at hsome
    · rw [if_neg he]
      intro hmem
      unfold docRefNames at hmem
      simp only [List.map_map, List.mem_append] at hmem
      rcases hmem with hmem | hmem
      · rw [List.mem_flatten] at hmem
        obtain ⟨l, hl, hml⟩ := hmem
        rw [List.mem_map] at hl
        obtain ⟨kv, hkv, rfl⟩ := hl
        exact not_mem_collect_rewrite (renameMapFor doc.schemas) hnew old hold kv.2 hml
      · exact not_mem_collect_rewrite (renameMapFor doc.schemas) hnew old hold doc.rest hmem

/-- Witness for C2 at `c2doc`: `Map` is reserved, `MapSchema` is taken, so
`Map` is renamed to the first free candidate and the `$ref` is rewritten. -/
theorem c2_rename_collision_repair_witness :
    ((c2doc.schemas.map Prod.fst).Nodup ∧ (∀ p ∈ c2doc.schemas, truthy p.2 = true)) ∧
    ((∀ k, k ∈ c2doc.schemas.map Prod.fst → k ∈ reservedNames →
      ∃ i, 1 ≤ i ∧
        (renameMapFor c2doc.schemas).lookup k = some (candAt k i) ∧
        candAt k i ∉ c2doc.schemas.map Prod.fst ∧
        (∀ j, 1 ≤ j → j < i → candAt k j ∈ c2doc.schemas.map Prod.fst)) ∧
    (∀ k, k ∉ reservedNames → (renameMapFor c2doc.schemas).lookup k = none) ∧
    ((renameConflictingSchemas c2doc).1.schemas.map Prod.fst =
      c2doc.schemas.map (fun kv => (((renameMapFor c2doc.schemas).lookup kv.1).getD kv.1))) ∧
    (∀ old, ((renameMapFor c2doc.schemas).lookup old).isSome →
      old ∉ docRefNames (renameConflictingSchemas c2doc).1)) :=
  ⟨⟨by decide, by decide⟩, c2_rename_collision_repair c2doc (by decide) (by decide)⟩

end Apical
